import Mathlib

/-!
# Azure SDK for C: client-secret credential policy, context tree, command names

A shallow embedding of `sdk/src/azure/core/az_credential_client_secret.c`, of the context
functions of `sdk/inc/azure/core/az_context.h`, and of `pnp_parse_command_name` of
`sdk/samples/iot/sample_pnp.c`.

* Spans are non-owning views; a view is either the null span or a list of bytes.
* Functions that mutate through pointers become functions returning the new
  contents next to the `az_result`.
* The clock, the token endpoint and the remaining policy chain are external
  collaborators: they are fields of `Env`, and every theorem quantifies over
  them.
* Helpers that belong to the SDK but whose bodies are in other translation
  units are modelled from the specification; each one says so in its doc
  comment.
-/

namespace AzCore

/-! ## Results -/

/-- Result codes. `AZ_OK` and `AZ_ERROR_ITEM_NOT_FOUND` are named in the sources; the other
constructors carry the names of the error taxonomy of the specification (section 7). -/
inductive az_result where
  | AZ_OK
  | AZ_ERROR_ITEM_NOT_FOUND
  | InvalidArgument
  | BufferTooSmall
  | MalformedResponse
  | Unauthorized
  | TransportError
deriving DecidableEq, Repr

/-- Failure test used by `AZ_RETURN_IF_FAILED`. -/
def az_failed (r : az_result) : Bool :=
  decide (r ≠ az_result.AZ_OK)

/-! ## Spans -/

/-- A span (`az_span`): `null` is `AZ_SPAN_NULL` (null pointer, size 0); `of bytes` is a view
with a non-null pointer over `bytes`. Bytes are modelled as characters. -/
inductive az_span where
  | null
  | of (bytes : List Char)
deriving DecidableEq, Repr

/-- The bytes a span designates. -/
def az_span.bytes : az_span → List Char
  | az_span.null => []
  | az_span.of bs => bs

/-- Number of bytes of a span (`az_span_size`). -/
def az_span_size (s : az_span) : Nat :=
  s.bytes.length

/-- Span over a string literal (`AZ_SPAN_FROM_STR`, `AZ_SPAN_LITERAL_FROM_STR`). -/
def AZ_SPAN_FROM_STR (s : String) : az_span :=
  az_span.of s.toList

/-- Span over the first `size` bytes of a buffer (`az_span_create`). -/
def az_span_create (buffer : List Char) (size : Int) : az_span :=
  az_span.of (buffer.take size.toNat)

/-- A zero-initialised byte buffer of `n` bytes (`uint8_t buf[n] = { 0 }`). -/
def zero_buffer (n : Nat) : List Char :=
  List.replicate n (Char.ofNat 0)

/-! ## HTTP request and response -/

/-- A header: a pair of views (`az_pair`). -/
structure az_pair where
  key : az_span
  value : az_span
deriving DecidableEq, Repr

/-- HTTP request (specification section 3): method, URL view, a list of headers bounded by the
capacity of its backing array, body view, and the borrowed context (an address). -/
structure az_http_request where
  context : Nat
  method : az_span
  url : az_span
  headers : List az_pair
  max_headers : Nat
  body : az_span
deriving DecidableEq, Repr

/-- HTTP response: the raw bytes received. -/
structure az_http_response where
  http_response : az_span
deriving DecidableEq, Repr

/-- The method of a POST request (`az_http_method_post`). -/
def az_http_method_post : az_span :=
  AZ_SPAN_FROM_STR "POST"

/-- The method of a GET request (`az_http_method_get`). -/
def az_http_method_get : az_span :=
  AZ_SPAN_FROM_STR "GET"

/-! ## Tokens and credentials -/

/-- A token record (`_az_token`, the TokenCache of the specification): the bearer-token
buffer, the number of meaningful bytes in it, and the expiry timestamp. -/
structure _az_token where
  token : List Char
  token_length : Int
  expiry : Int
deriving DecidableEq, Repr

/-- The token cache embedded in a credential (`_az_credential_token`). -/
structure _az_credential_token where
  token : _az_token
deriving DecidableEq, Repr

/-- Targets of the `apply_credential_policy` function pointer. -/
inductive _az_http_policy_process_fn where
  | NULL
  | client_secret_apply_policy
deriving DecidableEq, Repr

/-- Targets of the `set_scopes` function pointer. -/
inductive _az_credential_set_scopes_fn where
  | NULL
  | client_secret_set_scopes
deriving DecidableEq, Repr

/-- The dispatch record every credential starts with (`_az_credential`). -/
structure _az_credential where
  apply_credential_policy : _az_http_policy_process_fn
  set_scopes : _az_credential_set_scopes_fn
deriving DecidableEq, Repr

/-- The client-secret credential (`az_credential_client_secret`), fields in the order of the
initialiser in `az_credential_client_secret_init`. -/
structure az_credential_client_secret where
  credential : _az_credential
  token_credential : _az_credential_token
  tenant_id : az_span
  client_id : az_span
  client_secret : az_span
  scopes : az_span
  authority : az_span
deriving DecidableEq, Repr

/-- Compile-time sizes that the translation unit takes from private headers: the three
buffer sizes of a token request in bytes, the size of a header pair in bytes, and the capacity
of the bearer-token buffer of a token record. -/
structure Cfg where
  _az_AAD_REQUEST_URL_BUFFER_SIZE : Nat
  _az_AAD_REQUEST_BODY_BUFFER_SIZE : Nat
  _az_AAD_REQUEST_HEADER_BUFFER_SIZE : Nat
  sizeof_az_pair : Nat
  token_buffer_size : Nat

/-- The all-zero token (`_az_token token = { 0 }`). -/
def _az_token.zero (cfg : Cfg) : _az_token :=
  { token := zero_buffer cfg.token_buffer_size, token_length := 0, expiry := 0 }

/-- The meaningful bytes of a token record: the first `token_length` bytes of its buffer. -/
def _az_token.value (t : _az_token) : List Char :=
  t.token.take t.token_length.toNat

/-! ## External collaborators -/

/-- What the modelled code does that the outside can observe: a token acquisition sent to the
token endpoint, and a hand-over of a request to the remaining policies. -/
inductive Event where
  | token_request (request : az_http_request)
  | next_policy (policies : Nat) (request : az_http_request)
deriving DecidableEq, Repr

/-- The observable history: how many times the clock was read, and the events so far. -/
structure World where
  clock_reads : Nat
  trace : List Event
deriving DecidableEq, Repr

/-- The collaborators outside this translation unit. `az_platform_clock_msec k` is the value of
the `k`-th clock reading. `token_endpoint` is the outcome of one nested pipeline run against
the token endpoint: a result and, on success, the parsed `access_token` and `expires_in`.
`_az_http_pipeline_nextpolicy` is the behaviour of the remaining policies (identified by the
address `policies`): a result and the contents it leaves in the request and the response. -/
structure Env where
  az_platform_clock_msec : Nat → Int
  token_endpoint : World → az_http_request → az_result × List Char × Int
  _az_http_pipeline_nextpolicy :
    Nat → World → az_http_request → az_http_response →
      az_result × az_http_request × az_http_response

/-- The token requests of a trace, in order. -/
def token_requests : List Event → List az_http_request
  | [] => []
  | Event.token_request r :: es => r :: token_requests es
  | Event.next_policy _ _ :: es => token_requests es

/-- The hand-overs to the remaining policies of a trace, in order. -/
def forwards : List Event → List (Nat × az_http_request)
  | [] => []
  | Event.token_request _ :: es => forwards es
  | Event.next_policy p r :: es => (p, r) :: forwards es

/-! ## Helpers of the SDK whose bodies are in other translation units -/

/-- Modelled from the spec: `az_http_request_init` is declared in `az_http.h`, its body is
in another translation unit. Section 3: a request is a method, a URL view, a fixed-capacity
list of headers, a body view and a borrowed context. The URL view is the first `url_length`
bytes of the URL buffer; the header list starts empty, and its capacity is the number of
pairs the header buffer holds. -/
def az_http_request_init (context : Nat) (method : az_span) (url : az_span) (url_length : Nat)
    (headers_buffer_size sizeof_az_pair : Nat) (body : az_span) :
    az_result × az_http_request :=
  (az_result.AZ_OK,
    { context := context
      method := method
      url := az_span.of (url.bytes.take url_length)
      headers := []
      max_headers := headers_buffer_size / sizeof_az_pair
      body := body })

/-- Modelled from the spec: `az_http_request_append_header` is declared in `az_http.h`, its
body is in another translation unit. Section 3: headers are appended, never removed; the
header count is bounded by the capacity of the backing array, and exceeding it is a hard
error (`BufferTooSmall`, section 7), caught before any write. -/
def az_http_request_append_header (request : az_http_request) (key value : az_span) :
    az_result × az_http_request :=
  if request.headers.length < request.max_headers then
    (az_result.AZ_OK, { request with headers := request.headers ++ [{ key := key, value := value }] })
  else
    (az_result.BufferTooSmall, request)

/-- Modelled from the spec: `_az_credential_token_get_token` is declared in
`az_credential_token_private.h`. Section 4.2 step 1: read the cached token. -/
def _az_credential_token_get_token (self : _az_credential_token) (_out_token : _az_token) :
    az_result × _az_token :=
  (az_result.AZ_OK, self.token)

/-- Modelled from the spec: `_az_credential_token_set_token` is declared in
`az_credential_token_private.h`. Section 4.2 step 2: the new token record is written into
the cache. -/
def _az_credential_token_set_token (_self : _az_credential_token) (new_token : _az_token) :
    az_result × _az_credential_token :=
  (az_result.AZ_OK, { token := new_token })

/-- Modelled from the spec: `_az_token_expired` is declared in
`az_credential_token_private.h`. Section 4.2 step 2: the token is expired when
`token.expiry <= now`, with `now` read from the clock collaborator (section 3: a token is
valid iff `now < expiry`). -/
def _az_token_expired (env : Env) (token : _az_token) (w : World) : Bool × World :=
  (decide (token.expiry ≤ env.az_platform_clock_msec w.clock_reads),
    { w with clock_reads := w.clock_reads + 1 })

/-- The path appended to authority and tenant in the token URL. -/
def aad_token_path : List Char :=
  "/oauth2/v2.0/token".toList

/-- Modelled from the spec: `_az_aad_build_url` is declared in `az_aad_private.h`. Section
4.2 step 2: URL = authority + tenant_id + "/oauth2/v2.0/token", written into the URL buffer;
exceeding the buffer is a hard, reported error, never truncation. Returns the result, the
buffer contents, and the view of what was written. -/
def _az_aad_build_url (url : List Char) (authority tenant_id : az_span) :
    az_result × List Char × az_span :=
  let text := authority.bytes ++ tenant_id.bytes ++ aad_token_path
  if text.length ≤ url.length then
    (az_result.AZ_OK, text ++ url.drop text.length, az_span.of text)
  else
    (az_result.BufferTooSmall, url, az_span.null)

/-- The form-encoded body of a token request (section 6, field order fixed, values as the
caller supplied them). -/
def aad_body_text (client_id scopes client_secret : az_span) : List Char :=
  "grant_type=client_credentials&client_id=".toList ++ client_id.bytes
    ++ "&scope=".toList ++ scopes.bytes
    ++ "&client_secret=".toList ++ client_secret.bytes

/-- Modelled from the spec: `_az_aad_build_body` is declared in `az_aad_private.h`. Section
4.2 step 2 and section 6: body =
`grant_type=client_credentials&client_id=…&scope=…&client_secret=…`, written into the body
buffer; exceeding the buffer is a hard, reported error. Returns the result and the view of
what was written. -/
def _az_aad_build_body (body : List Char) (client_id scopes client_secret : az_span) :
    az_result × az_span :=
  let text := aad_body_text client_id scopes client_secret
  if text.length ≤ body.length then
    (az_result.AZ_OK, az_span.of text)
  else
    (az_result.BufferTooSmall, az_span.of body)

/-- The scheme that precedes the access token in the bearer token. -/
def bearer_scheme : List Char :=
  "Bearer ".toList

/-- Modelled from the spec: `_az_aad_request_token` is declared in `az_aad_private.h`.
Section 4.2 step 2 and section 6: the request gets the single header
`Content-Type: application/x-www-form-urlencoded` and is issued through the nested pipeline
(one `token_request` event, answered by `Env.token_endpoint`); an error of the exchange is
returned as it is; on success the new record is
`{bearer_token, length, expiry = now + expires_in}`, where the bearer token is `Bearer `
followed by the access token (sections 6 and 8: the header value `Bearer AccessToken` for the
access token `AccessToken`), and a bearer token larger than the token buffer is
`BufferTooSmall`. -/
def _az_aad_request_token (cfg : Cfg) (env : Env) (request : az_http_request)
    (out_token : _az_token) (w : World) : az_result × _az_token × World :=
  match az_http_request_append_header request (AZ_SPAN_FROM_STR "Content-Type")
      (AZ_SPAN_FROM_STR "application/x-www-form-urlencoded") with
  | (r1, request1) =>
    if az_failed r1 then (r1, out_token, w)
    else
      let w1 : World := { w with trace := w.trace ++ [Event.token_request request1] }
      match env.token_endpoint w request1 with
      | (r2, access_token, expires_in) =>
        if az_failed r2 then (r2, out_token, w1)
        else
          let bearer := bearer_scheme ++ access_token
          if cfg.token_buffer_size < bearer.length then
            (az_result.BufferTooSmall, out_token, w1)
          else
            let now := env.az_platform_clock_msec w1.clock_reads
            (az_result.AZ_OK,
              { token := bearer ++ zero_buffer (cfg.token_buffer_size - bearer.length)
                token_length := (bearer.length : Int)
                expiry := now + expires_in },
              { w1 with clock_reads := w1.clock_reads + 1 })

/-- Modelled from the spec: the condition of the macro
`_az_PRECONDITION_VALID_SPAN(span, min_size, null_is_valid)`, which is defined in
`az_precondition_internal.h`. Section 7: required inputs must be neither null nor empty. The
pointer is non-null unless a null span is allowed, and the span has at least `min_size`
bytes. -/
def _az_span_is_valid (span : az_span) (min_size : Nat) (null_is_valid : Bool) : Bool :=
  (match span with
    | az_span.null => null_is_valid
    | az_span.of _ => true) && decide (min_size ≤ az_span_size span)

/-! ## `az_credential_client_secret.c` -/

/-- The default authority (`az_aad_global_authority`, lines 16-17). -/
def az_aad_global_authority : az_span :=
  AZ_SPAN_FROM_STR "https://login.microsoftonline.com/"

/-- The function `_az_credential_client_secret_request_token` (lines 19-52): build the URL
and the body in zeroed stack buffers, initialise a POST request over them with the caller's
context, and hand it to `_az_aad_request_token`. Each step returns early on failure. -/
def _az_credential_client_secret_request_token (cfg : Cfg) (env : Env)
    (credential : az_credential_client_secret) (context : Nat) (out_token : _az_token)
    (w : World) : az_result × _az_token × World :=
  let url_buf := zero_buffer cfg._az_AAD_REQUEST_URL_BUFFER_SIZE
  match _az_aad_build_url url_buf credential.authority credential.tenant_id with
  | (r1, url_span, url) =>
    if az_failed r1 then (r1, out_token, w)
    else
      let body_buf := zero_buffer cfg._az_AAD_REQUEST_BODY_BUFFER_SIZE
      match _az_aad_build_body body_buf credential.client_id credential.scopes
          credential.client_secret with
      | (r2, body) =>
        if az_failed r2 then (r2, out_token, w)
        else
          match az_http_request_init context az_http_method_post (az_span.of url_span)
              (az_span_size url) cfg._az_AAD_REQUEST_HEADER_BUFFER_SIZE cfg.sizeof_az_pair
              body with
          | (r3, request) =>
            if az_failed r3 then (r3, out_token, w)
            else _az_aad_request_token cfg env request out_token w

/-- The name of the injected header (`_az_auth_header_name`, line 54). -/
def _az_auth_header_name : az_span :=
  AZ_SPAN_FROM_STR "authorization"

/-- What `_az_credential_client_secret_apply_policy` leaves behind: the credential, the
request and the response it was given pointers to, and the observable history. -/
structure PolicyState where
  credential : az_credential_client_secret
  request : az_http_request
  response : az_http_response
  world : World
deriving DecidableEq, Repr

/-- The function `_az_credential_client_secret_apply_policy` (lines 57-82): read the cached
token; when it is expired request a new one and store it; append the authorization header
whose value is the first `token_length` bytes of the token; hand over to the remaining
policies and return their result. Each step returns early on failure. -/
def _az_credential_client_secret_apply_policy (cfg : Cfg) (env : Env) (policies : Nat)
    (credential : az_credential_client_secret) (ref_request : az_http_request)
    (response : az_http_response) (w : World) : az_result × PolicyState :=
  match _az_credential_token_get_token credential.token_credential (_az_token.zero cfg) with
  | (r1, token1) =>
    if az_failed r1 then (r1, ⟨credential, ref_request, response, w⟩)
    else
      match _az_token_expired env token1 w with
      | (expired, w1) =>
        let acquired : Except (az_result × World)
            (_az_token × az_credential_client_secret × World) :=
          if expired then
            match _az_credential_client_secret_request_token cfg env credential
                ref_request.context token1 w1 with
            | (r2, token2, w2) =>
              if az_failed r2 then Except.error (r2, w2)
              else
                match _az_credential_token_set_token credential.token_credential token2 with
                | (r3, token_credential3) =>
                  if az_failed r3 then Except.error (r3, w2)
                  else
                    Except.ok
                      (token2, { credential with token_credential := token_credential3 }, w2)
          else Except.ok (token1, credential, w1)
        match acquired with
        | Except.error (r, w2) => (r, ⟨credential, ref_request, response, w2⟩)
        | Except.ok (token, credential4, w3) =>
          let token_length := token.token_length
          match az_http_request_append_header ref_request _az_auth_header_name
              (az_span_create token.token token_length) with
          | (r4, request4) =>
            if az_failed r4 then (r4, ⟨credential4, request4, response, w3⟩)
            else
              let w4 : World :=
                { w3 with trace := w3.trace ++ [Event.next_policy policies request4] }
              match env._az_http_pipeline_nextpolicy policies w3 request4 response with
              | (r5, request5, response5) => (r5, ⟨credential4, request5, response5, w4⟩)

/-- The function `_az_credential_client_secret_set_scopes` (lines 84-89). -/
def _az_credential_client_secret_set_scopes (ref_credential : az_credential_client_secret)
    (scopes : az_span) : az_result × az_credential_client_secret :=
  (az_result.AZ_OK, { ref_credential with scopes := scopes })

/-- Modelled from the spec: how a call that starts with `_az_PRECONDITION_*` macros of
`az_precondition_internal.h` ends. Section 9 names the macros of the source as
precondition assertions that abort (the typed error returned at the construction boundary
is what it proposes in their place): when an assertion fails the call stops there and
returns nothing; otherwise the call returns a result. -/
inductive call_end where
  | returned (result : az_result)
  | precondition_failed
deriving DecidableEq, Repr

/-- The function `az_credential_client_secret_init` (lines 91-122). `out_credential` is the
memory the pointer designates (`none` for a null pointer); the outcome carries how the call
ended and the contents of that memory afterwards. The five preconditions are asserted in
order; then the whole record is written, with the global authority when the given one has
size 0, and `AZ_OK` is returned. -/
def az_credential_client_secret_init (cfg : Cfg)
    (out_credential : Option az_credential_client_secret)
    (tenant_id client_id client_secret authority : az_span) :
    call_end × Option az_credential_client_secret :=
  if out_credential.isNone then (call_end.precondition_failed, out_credential)
  else if !_az_span_is_valid tenant_id 1 false then
    (call_end.precondition_failed, out_credential)
  else if !_az_span_is_valid client_id 1 false then
    (call_end.precondition_failed, out_credential)
  else if !_az_span_is_valid client_secret 1 false then
    (call_end.precondition_failed, out_credential)
  else if !_az_span_is_valid authority 0 true then
    (call_end.precondition_failed, out_credential)
  else
    (call_end.returned az_result.AZ_OK,
      some
        { credential :=
            { apply_credential_policy := _az_http_policy_process_fn.client_secret_apply_policy
              set_scopes := _az_credential_set_scopes_fn.client_secret_set_scopes }
          token_credential := { token := _az_token.zero cfg }
          tenant_id := tenant_id
          client_id := client_id
          client_secret := client_secret
          scopes := az_span.null
          authority := if az_span_size authority > 0 then authority else az_aad_global_authority })

/-- The token request as section 6 words it: a POST to authority + tenant +
"/oauth2/v2.0/token", the single header `Content-Type: application/x-www-form-urlencoded`,
the form-encoded body, and the given context. -/
def aad_token_request (cfg : Cfg) (credential : az_credential_client_secret) (context : Nat) :
    az_http_request :=
  { context := context
    method := AZ_SPAN_FROM_STR "POST"
    url := az_span.of (credential.authority.bytes ++ credential.tenant_id.bytes
      ++ "/oauth2/v2.0/token".toList)
    headers :=
      [{ key := AZ_SPAN_FROM_STR "Content-Type"
         value := AZ_SPAN_FROM_STR "application/x-www-form-urlencoded" }]
    max_headers := cfg._az_AAD_REQUEST_HEADER_BUFFER_SIZE / cfg.sizeof_az_pair
    body := az_span.of ("grant_type=client_credentials&client_id=".toList
      ++ credential.client_id.bytes ++ "&scope=".toList ++ credential.scopes.bytes
      ++ "&client_secret=".toList ++ credential.client_secret.bytes) }

/-- The token request of a credential fits the fixed buffers: the URL fits the URL buffer, the
body fits the body buffer, and the header buffer holds at least one pair. -/
def aad_request_fits (cfg : Cfg) (credential : az_credential_client_secret) : Prop :=
  (credential.authority.bytes ++ credential.tenant_id.bytes ++ aad_token_path).length
      ≤ cfg._az_AAD_REQUEST_URL_BUFFER_SIZE
    ∧ (aad_body_text credential.client_id credential.scopes credential.client_secret).length
      ≤ cfg._az_AAD_REQUEST_BODY_BUFFER_SIZE
    ∧ 0 < cfg._az_AAD_REQUEST_HEADER_BUFFER_SIZE / cfg.sizeof_az_pair

instance (cfg : Cfg) (credential : az_credential_client_secret) :
    Decidable (aad_request_fits cfg credential) := by
  unfold aad_request_fits
  infer_instance

/-! ## Sample inputs

The end-to-end scenario of the tests: tenant `TenantID`, client `ClientID`, secret
`ClientSecret`, scopes `Scopes`, the clock at 100000000, and a token endpoint that issues
`AccessToken` for 3600. -/

/-- Buffer sizes of the sample runs. -/
def sample_cfg : Cfg :=
  { _az_AAD_REQUEST_URL_BUFFER_SIZE := 100
    _az_AAD_REQUEST_BODY_BUFFER_SIZE := 200
    _az_AAD_REQUEST_HEADER_BUFFER_SIZE := 160
    sizeof_az_pair := 16
    token_buffer_size := 32 }

/-- Collaborators of the sample runs: a fixed clock, a token endpoint that issues
`AccessToken`, and a transport that answers 200 and leaves the request as it is. -/
def sample_env : Env :=
  { az_platform_clock_msec := fun _ => 100000000
    token_endpoint := fun _ _ => (az_result.AZ_OK, "AccessToken".toList, 3600)
    _az_http_pipeline_nextpolicy := fun _ _ request _ =>
      (az_result.AZ_OK, request, { http_response := AZ_SPAN_FROM_STR "HTTP/1.1 200 OK" }) }

/-- Collaborators as in `sample_env`, with a token endpoint that cannot be reached. -/
def sample_env_down : Env :=
  { sample_env with
    token_endpoint := fun _ _ => (az_result.TransportError, [], 0) }

/-- A freshly initialised credential (empty cache) with its scopes set. -/
def sample_credential : az_credential_client_secret :=
  { credential :=
      { apply_credential_policy := _az_http_policy_process_fn.client_secret_apply_policy
        set_scopes := _az_credential_set_scopes_fn.client_secret_set_scopes }
    token_credential := { token := _az_token.zero sample_cfg }
    tenant_id := AZ_SPAN_FROM_STR "TenantID"
    client_id := AZ_SPAN_FROM_STR "ClientID"
    client_secret := AZ_SPAN_FROM_STR "ClientSecret"
    scopes := AZ_SPAN_FROM_STR "Scopes"
    authority := az_aad_global_authority }

/-- The same credential after a first request: the cache holds the issued token. -/
def sample_credential_cached : az_credential_client_secret :=
  { sample_credential with
    token_credential :=
      { token :=
          { token := "Bearer AccessToken".toList ++ zero_buffer 14
            token_length := 18
            expiry := 100003600 } } }

/-- The outgoing request of the tests, with room for four headers. -/
def sample_request : az_http_request :=
  { context := 0
    method := az_http_method_get
    url := AZ_SPAN_FROM_STR "https://www.microsoft.com/test/request"
    headers := []
    max_headers := 4
    body := az_span.of [] }

/-- The same request over a header buffer that holds one header, already in use. -/
def sample_request_full : az_http_request :=
  { sample_request with
    headers := [{ key := AZ_SPAN_FROM_STR "x-ms-date", value := AZ_SPAN_FROM_STR "now" }]
    max_headers := 1 }

/-- An empty response slot. -/
def sample_response : az_http_response :=
  { http_response := az_span.null }

/-- The history before the first call. -/
def sample_world : World :=
  { clock_reads := 0, trace := [] }

/-! ## `az_context.h`

Context nodes live in caller-owned storage and refer to their parent by address, so a
cancellation of a node is seen by every node below it. The storage is a map from addresses to
nodes; a pointer is an address or `none` for `NULL`. -/

/-- A context node (`struct az_context`): pointer to the parent, own expiration, and the
pointers to key and value. -/
structure az_context where
  parent : Option Nat
  expiration : Int
  key : Option Nat
  value : Option Nat
deriving DecidableEq, Repr

/-- The storage holding the context nodes: the node at an address, or `none` when no node
lives there. -/
abbrev ContextMemory := Nat → Option az_context

/-- The constant `_az_CONTEXT_MAX_EXPIRATION` (line 44). -/
def _az_CONTEXT_MAX_EXPIRATION : Int :=
  0x7FFFFFFFFFFFFFFF

/-- The address of the global root node (`&az_context_application`, line 52). -/
def az_context_application : Nat :=
  0

/-- The expression `(p != NULL) ? p : &az_context_application` of lines 66, 82 and 96. -/
def context_or_application (p : Option Nat) : Nat :=
  match p with
  | some c => c
  | none => az_context_application

/-- The values of `int64_t`. -/
def is_int64 (x : Int) : Prop :=
  -0x8000000000000000 ≤ x ∧ x ≤ 0x7FFFFFFFFFFFFFFF

instance (x : Int) : Decidable (is_int64 x) := by
  unfold is_int64
  infer_instance

/-- The function `az_context_create_with_expiration` (lines 62-68): the parent is the given
one, or the root when `NULL` is given; key and value are not named in the initialiser, so
they are null. -/
def az_context_create_with_expiration (parent : Option Nat) (expiration : Int) : az_context :=
  { parent := some (context_or_application parent)
    expiration := expiration
    key := none
    value := none }

/-- The function `az_context_create_with_value` (lines 79-86). -/
def az_context_create_with_value (parent : Option Nat) (key value : Option Nat) : az_context :=
  { parent := some (context_or_application parent)
    expiration := _az_CONTEXT_MAX_EXPIRATION
    key := key
    value := value }

/-- The function `az_context_cancel` (lines 94-98): the node designated, or the root when
`NULL` is given, gets the expiration 0. An address where no node lives is left alone. -/
def az_context_cancel (mem : ContextMemory) (context : Option Nat) : ContextMemory :=
  let context := context_or_application context
  match mem context with
  | some node => Function.update mem context (some { node with expiration := 0 })
  | none => mem

/-- The walk of `az_context_get_expiration` from a pointer on, with the smallest expiration
met so far; `fuel` bounds the number of nodes visited, `none` is a walk that did not reach a
null parent within that bound or met an address where no node lives. -/
def get_expiration_walk (mem : ContextMemory) : Nat → Option Nat → Int → Option Int
  | _, none, expiration => some expiration
  | 0, some _, _ => none
  | fuel + 1, some c, expiration =>
    match mem c with
    | none => none
    | some node =>
      get_expiration_walk mem fuel node.parent
        (if node.expiration < expiration then node.expiration else expiration)

/-- Modelled from the spec: `az_context_get_expiration` is declared at line 106, its body is in
another translation unit. Section 4.1: walks from the given node to the root, returning the
minimum expiration encountered. A null pointer stands for the root, as the header says of
`az_context_has_expired`. -/
def az_context_get_expiration (mem : ContextMemory) (fuel : Nat) (context : Option Nat) :
    Option Int :=
  match mem (context_or_application context) with
  | none => none
  | some node => get_expiration_walk mem fuel node.parent node.expiration

/-- The function `az_context_has_expired` (lines 116-119). -/
def az_context_has_expired (mem : ContextMemory) (fuel : Nat) (context : Option Nat)
    (current_time : Int) : Option Bool :=
  (az_context_get_expiration mem fuel context).map (fun expiration =>
    decide (expiration < current_time))

/-- Modelled from the spec: `az_context_get_value` is declared at lines 132-133, its body is in
another translation unit. Section 4.1: walks from the given node toward the root; returns the
value of the nearest node (the given one included) whose key matches, or fails with
`NotFound` (`AZ_ERROR_ITEM_NOT_FOUND` in the header) if no node in the chain carries that key;
keys match by identity, that is as pointers. `fuel` bounds the number of nodes visited. -/
def az_context_get_value (mem : ContextMemory) : Nat → Option Nat → Option Nat →
    Option (Except az_result (Option Nat))
  | _, none, _ => some (Except.error az_result.AZ_ERROR_ITEM_NOT_FOUND)
  | 0, some _, _ => none
  | fuel + 1, some c, key =>
    match mem c with
    | none => none
    | some node =>
      if node.key = key then some (Except.ok node.value)
      else az_context_get_value mem fuel node.parent key

/-- The ancestor chain of a pointer: the nodes met from it up to the node whose parent is
null, each with its address, nearest first; `none` when the chain has more than `fuel` nodes
or leads to an address where no node lives. -/
def ancestor_chain (mem : ContextMemory) : Nat → Option Nat → Option (List (Nat × az_context))
  | _, none => some []
  | 0, some _ => none
  | fuel + 1, some c =>
    match mem c with
    | none => none
    | some node =>
      match ancestor_chain mem fuel node.parent with
      | none => none
      | some rest => some ((c, node) :: rest)

/-- The minimum of the own expirations of a node and of the nodes of a chain, in the words of
section 3: the minimum of the own expiration and the effective expiration of the parent. -/
def chain_minimum (own : Int) : List (Nat × az_context) → Int
  | [] => own
  | (_, node) :: rest => min own (chain_minimum node.expiration rest)

/-! ## Sample contexts -/

/-- A storage with the root at its address, never expiring; a child of the root at address 1
expiring at 500 and bound to key 70; and a child of that child at address 2, bound to key 71,
never expiring by itself. -/
def sample_memory : ContextMemory :=
  fun address =>
    if address = 0 then
      some { parent := none, expiration := _az_CONTEXT_MAX_EXPIRATION, key := none,
             value := none }
    else if address = 1 then
      some { parent := some 0, expiration := 500, key := some 70, value := some 700 }
    else if address = 2 then
      some (az_context_create_with_value (some 1) (some 71) (some 710))
    else none

/-- The sample storage with the node at address 2 bound to key 70 as well, so that the key of
its parent is bound twice on the chain. -/
def sample_memory_shadowed : ContextMemory :=
  Function.update sample_memory 2
    (some (az_context_create_with_value (some 1) (some 70) (some 710)))

/-! ## `sample_pnp.c` -/

/-- The separator between component and command (`command_separator`, line 27). -/
def command_separator : az_span :=
  AZ_SPAN_FROM_STR "*"

/-- The two functions of `az_span.h` that `pnp_parse_command_name` calls. Their bodies are in
another translation unit and the specification takes the view primitive as given, so they
are parameters of the model. -/
structure SpanFunctions where
  az_span_find : az_span → az_span → Int
  az_span_slice : az_span → Int → Int → az_span

/-- The function `pnp_parse_command_name` (lines 180-199). The two output spans are written
on every path; the result carries them after the status. -/
def pnp_parse_command_name (fns : SpanFunctions) (component_command : az_span) :
    az_result × az_span × az_span :=
  let index := fns.az_span_find component_command command_separator
  if index > 0 then
    (az_result.AZ_OK,
      fns.az_span_slice component_command 0 index,
      fns.az_span_slice component_command (index + 1) (az_span_size component_command))
  else
    (az_result.AZ_OK, az_span.null, component_command)

/-- The bytes `target` stand in `source` from position `i` on. -/
def occurs_at (source target : List Char) (i : Nat) : Prop :=
  (source.drop i).take target.length = target

instance (source target : List Char) (i : Nat) : Decidable (occurs_at source target i) := by
  unfold occurs_at
  infer_instance

/-- What the callers of the two span functions rely on: `az_span_find` returns the position
of the first occurrence of the target in the source and -1 when there is none;
`az_span_slice` of a non-null span is the view of the bytes from `start` up to `stop`. -/
structure SpanFunctions.Lawful (fns : SpanFunctions) : Prop where
  find_first : ∀ (source target : az_span) (i : Nat),
    occurs_at source.bytes target.bytes i →
    (∀ j, j < i → ¬ occurs_at source.bytes target.bytes j) →
    fns.az_span_find source target = (i : Int)
  find_none : ∀ (source target : az_span),
    (∀ i, ¬ occurs_at source.bytes target.bytes i) →
    fns.az_span_find source target = -1
  slice : ∀ (bytes : List Char) (start stop : Nat),
    start ≤ stop → stop ≤ bytes.length →
    fns.az_span_slice (az_span.of bytes) (start : Int) (stop : Int)
      = az_span.of ((bytes.drop start).take (stop - start))

/-- The position of the first occurrence of `target` in `source`, counted from `i`: the
search goes over the positions one after the other. -/
def first_occurrence (target : List Char) : List Char → Nat → Option Nat
  | [], i => if ([] : List Char).take target.length = target then some i else none
  | c :: cs, i =>
    if (c :: cs).take target.length = target then some i
    else first_occurrence target cs (i + 1)

/-- Span functions for the sample runs: a search over the positions one after the other, and
the sub-view. -/
def sample_span_functions : SpanFunctions :=
  { az_span_find := fun source target =>
      match first_occurrence target.bytes source.bytes 0 with
      | some i => (i : Int)
      | none => -1
    az_span_slice := fun span start stop =>
      match span with
      | az_span.null => az_span.null
      | az_span.of bytes => az_span.of ((bytes.drop start.toNat).take (stop - start).toNat) }

/-! ## Traces -/

theorem token_requests_append (a b : List Event) :
    token_requests (a ++ b) = token_requests a ++ token_requests b := by
  induction a with
  | nil => rfl
  | cons e es ih => cases e <;> simp [token_requests, ih]

theorem forwards_append (a b : List Event) :
    forwards (a ++ b) = forwards a ++ forwards b := by
  induction a with
  | nil => rfl
  | cons e es ih => cases e <;> simp [forwards, ih]

theorem az_failed_eq_false_iff (r : az_result) : az_failed r = false ↔ r = az_result.AZ_OK := by
  cases r <;> simp [az_failed]

theorem zero_buffer_length (n : Nat) : (zero_buffer n).length = n := by
  simp [zero_buffer]

/-! ## The token request -/

theorem az_span_bytes_of (bs : List Char) : (az_span.of bs).bytes = bs := rfl

theorem aad_token_request_eq (cfg : Cfg) (credential : az_credential_client_secret)
    (context : Nat) :
    aad_token_request cfg credential context
      = { context := context
          method := az_http_method_post
          url := az_span.of (credential.authority.bytes ++ credential.tenant_id.bytes
            ++ aad_token_path)
          headers :=
            [{ key := AZ_SPAN_FROM_STR "Content-Type"
               value := AZ_SPAN_FROM_STR "application/x-www-form-urlencoded" }]
          max_headers := cfg._az_AAD_REQUEST_HEADER_BUFFER_SIZE / cfg.sizeof_az_pair
          body := az_span.of
            (aad_body_text credential.client_id credential.scopes credential.client_secret) } :=
  rfl

/-- When the request fits the buffers, `_az_credential_client_secret_request_token` sends
exactly the request of the wire format and builds the token from the answer. -/
theorem request_token_unfold (cfg : Cfg) (env : Env) (credential : az_credential_client_secret)
    (context : Nat) (out_token : _az_token) (w : World) (hfit : aad_request_fits cfg credential) :
    _az_credential_client_secret_request_token cfg env credential context out_token w
      = (match env.token_endpoint w (aad_token_request cfg credential context) with
        | (r2, access_token, expires_in) =>
          if az_failed r2 then
            (r2, out_token,
              { w with trace := w.trace
                  ++ [Event.token_request (aad_token_request cfg credential context)] })
          else if cfg.token_buffer_size < (bearer_scheme ++ access_token).length then
            (az_result.BufferTooSmall, out_token,
              { w with trace := w.trace
                  ++ [Event.token_request (aad_token_request cfg credential context)] })
          else
            (az_result.AZ_OK,
              { token := (bearer_scheme ++ access_token)
                  ++ zero_buffer (cfg.token_buffer_size - (bearer_scheme ++ access_token).length)
                token_length := ((bearer_scheme ++ access_token).length : Int)
                expiry := env.az_platform_clock_msec w.clock_reads + expires_in },
              { clock_reads := w.clock_reads + 1
                trace := w.trace
                  ++ [Event.token_request (aad_token_request cfg credential context)] })) := by
  obtain ⟨h1, h2, h3⟩ := hfit
  have hf : az_failed az_result.AZ_OK = false := rfl
  rw [aad_token_request_eq]
  simp only [_az_credential_client_secret_request_token, _az_aad_build_url, _az_aad_build_body,
    az_http_request_init, _az_aad_request_token, az_http_request_append_header,
    zero_buffer_length, h1, h2, if_true, hf, az_span_size, az_span_bytes_of,
    List.take_left, List.length_nil, h3, Bool.false_eq_true, if_false, List.nil_append]

/-- When the request does not fit the buffers, nothing is sent and the call fails. -/
theorem request_token_not_fits (cfg : Cfg) (env : Env)
    (credential : az_credential_client_secret) (context : Nat) (out_token : _az_token)
    (w : World) (hfit : ¬ aad_request_fits cfg credential) :
    _az_credential_client_secret_request_token cfg env credential context out_token w
      = (az_result.BufferTooSmall, out_token, w) := by
  have hf : az_failed az_result.AZ_OK = false := rfl
  have hb : az_failed az_result.BufferTooSmall = true := rfl
  unfold aad_request_fits at hfit
  by_cases h1 : (credential.authority.bytes ++ credential.tenant_id.bytes
      ++ aad_token_path).length ≤ cfg._az_AAD_REQUEST_URL_BUFFER_SIZE
  · by_cases h2 : (aad_body_text credential.client_id credential.scopes
        credential.client_secret).length ≤ cfg._az_AAD_REQUEST_BODY_BUFFER_SIZE
    · have h3 : ¬ 0 < cfg._az_AAD_REQUEST_HEADER_BUFFER_SIZE / cfg.sizeof_az_pair :=
        fun h => hfit ⟨h1, h2, h⟩
      simp only [_az_credential_client_secret_request_token, _az_aad_build_url,
        _az_aad_build_body, az_http_request_init, _az_aad_request_token,
        az_http_request_append_header, zero_buffer_length, h1, h2, if_true, hf, hb,
        List.length_nil, h3, Bool.false_eq_true, if_false]
    · simp only [_az_credential_client_secret_request_token, _az_aad_build_url,
        _az_aad_build_body, zero_buffer_length, h1, h2, if_true, hf, hb,
        Bool.false_eq_true, if_false]
  · simp only [_az_credential_client_secret_request_token, _az_aad_build_url,
      zero_buffer_length, h1, if_true, hb, if_false]

/-! ## The policy -/

/-- The request with the authorization header carrying the meaningful bytes of `token`. -/
theorem az_span_create_value (token : _az_token) :
    az_span_create token.token token.token_length = az_span.of token.value := rfl

/-- The policy when the cached token is not expired (lines 63-67 and 76-81). -/
theorem apply_policy_cached (cfg : Cfg) (env : Env) (policies : Nat)
    (credential : az_credential_client_secret) (ref_request : az_http_request)
    (response : az_http_response) (w : World)
    (h : (_az_token_expired env credential.token_credential.token w).1 = false) :
    _az_credential_client_secret_apply_policy cfg env policies credential ref_request response w
      = (if ref_request.headers.length < ref_request.max_headers then
          ((env._az_http_pipeline_nextpolicy policies
              { w with clock_reads := w.clock_reads + 1 }
              { ref_request with headers := ref_request.headers
                  ++ [{ key := _az_auth_header_name
                        value := az_span.of credential.token_credential.token.value }] }
              response).1,
            { credential := credential
              request := (env._az_http_pipeline_nextpolicy policies
                { w with clock_reads := w.clock_reads + 1 }
                { ref_request with headers := ref_request.headers
                    ++ [{ key := _az_auth_header_name
                          value := az_span.of credential.token_credential.token.value }] }
                response).2.1
              response := (env._az_http_pipeline_nextpolicy policies
                { w with clock_reads := w.clock_reads + 1 }
                { ref_request with headers := ref_request.headers
                    ++ [{ key := _az_auth_header_name
                          value := az_span.of credential.token_credential.token.value }] }
                response).2.2
              world :=
                { clock_reads := w.clock_reads + 1
                  trace := w.trace ++ [Event.next_policy policies
                    { ref_request with headers := ref_request.headers
                        ++ [{ key := _az_auth_header_name
                              value := az_span.of credential.token_credential.token.value }] }] } })
        else
          (az_result.BufferTooSmall,
            { credential := credential
              request := ref_request
              response := response
              world := { w with clock_reads := w.clock_reads + 1 } })) := by
  have hf : az_failed az_result.AZ_OK = false := rfl
  have hb : az_failed az_result.BufferTooSmall = true := rfl
  simp only [_az_token_expired] at h
  simp only [_az_credential_client_secret_apply_policy, _az_credential_token_get_token,
    _az_token_expired, h, hf, Bool.false_eq_true, if_false, az_http_request_append_header,
    az_span_create_value]
  split <;> simp only [hf, hb, Bool.false_eq_true, if_false, if_true]

/-- The policy when the cached token is expired (lines 63-81): the outcome in terms of the
token request `rt`. -/
theorem apply_policy_expired (cfg : Cfg) (env : Env) (policies : Nat)
    (credential : az_credential_client_secret) (ref_request : az_http_request)
    (response : az_http_response) (w : World)
    (h : (_az_token_expired env credential.token_credential.token w).1 = true)
    (rt : az_result × _az_token × World)
    (hrt : rt = _az_credential_client_secret_request_token cfg env credential
      ref_request.context credential.token_credential.token
      { w with clock_reads := w.clock_reads + 1 })
    (request4 : az_http_request)
    (hreq : request4 = { ref_request with headers := ref_request.headers
      ++ [{ key := _az_auth_header_name, value := az_span.of rt.2.1.value }] }) :
    _az_credential_client_secret_apply_policy cfg env policies credential ref_request response w
      = (if az_failed rt.1 then
          (rt.1, { credential := credential, request := ref_request, response := response,
                   world := rt.2.2 })
        else if ref_request.headers.length < ref_request.max_headers then
          ((env._az_http_pipeline_nextpolicy policies rt.2.2 request4 response).1,
            { credential := { credential with token_credential := { token := rt.2.1 } }
              request := (env._az_http_pipeline_nextpolicy policies rt.2.2 request4 response).2.1
              response := (env._az_http_pipeline_nextpolicy policies rt.2.2 request4 response).2.2
              world := { rt.2.2 with
                trace := rt.2.2.trace ++ [Event.next_policy policies request4] } })
        else
          (az_result.BufferTooSmall,
            { credential := { credential with token_credential := { token := rt.2.1 } }
              request := ref_request
              response := response
              world := rt.2.2 })) := by
  have hf : az_failed az_result.AZ_OK = false := rfl
  have hb : az_failed az_result.BufferTooSmall = true := rfl
  simp only [_az_token_expired] at h hrt
  subst hreq
  simp only [_az_credential_client_secret_apply_policy, _az_credential_token_get_token,
    _az_token_expired, h, hf, Bool.false_eq_true, if_false, if_true, ← hrt,
    _az_credential_token_set_token, az_http_request_append_header, az_span_create_value]
  obtain ⟨r2, token2, w2⟩ := rt
  by_cases hr : az_failed r2 = true
  · simp only [hr, if_true]
  · simp only [hr, Bool.false_eq_true, if_false, hf]
    split <;> simp only [hf, hb, Bool.false_eq_true, if_false, if_true]

/-- The meaningful bytes of a token record built over a zero-padded buffer. -/
theorem token_value_padded (bearer : List Char) (n : Nat) (e : Int) :
    _az_token.value { token := bearer ++ zero_buffer n, token_length := (bearer.length : Int),
                      expiry := e } = bearer := by
  simp [_az_token.value]

/-- A successful token request: the request fitted, the endpoint answered with success, and the
record returned holds the bearer scheme followed by the access token of the answer. -/
theorem request_token_ok (cfg : Cfg) (env : Env) (credential : az_credential_client_secret)
    (context : Nat) (out_token : _az_token) (w : World)
    (hok : az_failed (_az_credential_client_secret_request_token cfg env credential context
      out_token w).1 = false) :
    aad_request_fits cfg credential ∧
    ∃ access_token expires_in,
      env.token_endpoint w (aad_token_request cfg credential context)
        = (az_result.AZ_OK, access_token, expires_in)
      ∧ (_az_credential_client_secret_request_token cfg env credential context
          out_token w).2.1.value = bearer_scheme ++ access_token
      ∧ (_az_credential_client_secret_request_token cfg env credential context
          out_token w).2.1.expiry = env.az_platform_clock_msec w.clock_reads + expires_in
      ∧ (_az_credential_client_secret_request_token cfg env credential context
          out_token w).2.2
        = { clock_reads := w.clock_reads + 1
            trace := w.trace
              ++ [Event.token_request (aad_token_request cfg credential context)] } := by
  have hb : az_failed az_result.BufferTooSmall = true := rfl
  by_cases hfit : aad_request_fits cfg credential
  · refine ⟨hfit, ?_⟩
    rw [request_token_unfold cfg env credential context out_token w hfit] at hok ⊢
    rcases hep : env.token_endpoint w (aad_token_request cfg credential context) with
      ⟨r2, access_token, expires_in⟩
    rw [hep] at hok
    simp only at hok ⊢
    by_cases hr : az_failed r2 = true
    · rw [if_pos hr] at hok
      exact absurd hr (by simp only at hok; rw [hok]; exact Bool.false_ne_true)
    · rw [if_neg hr] at hok ⊢
      by_cases hc : cfg.token_buffer_size < (bearer_scheme ++ access_token).length
      · rw [if_pos hc] at hok
        exact Bool.noConfusion (hb.symm.trans hok)
      · rw [if_neg hc]
        have hr2 : r2 = az_result.AZ_OK := (az_failed_eq_false_iff r2).1 (by simpa using hr)
        exact ⟨access_token, expires_in, by rw [hr2], token_value_padded _ _ _, rfl, rfl⟩
  · rw [request_token_not_fits cfg env credential context out_token w hfit] at hok
    simp [hb] at hok

/-- Whatever the outcome, a token request adds at most the one `token_request` event of the
wire format to the trace, and no hand-over. -/
theorem request_token_trace (cfg : Cfg) (env : Env) (credential : az_credential_client_secret)
    (context : Nat) (out_token : _az_token) (w : World) :
    (_az_credential_client_secret_request_token cfg env credential context out_token w).2.2.trace
      = w.trace ++ (if aad_request_fits cfg credential then
          [Event.token_request (aad_token_request cfg credential context)] else []) := by
  by_cases hfit : aad_request_fits cfg credential
  · rw [request_token_unfold cfg env credential context out_token w hfit]
    rcases hep : env.token_endpoint w (aad_token_request cfg credential context) with
      ⟨r2, access_token, expires_in⟩
    simp only [hfit, if_true]
    split <;> [rfl; (split <;> rfl)]
  · rw [request_token_not_fits cfg env credential context out_token w hfit]
    simp [hfit]

theorem request_token_forwards (cfg : Cfg) (env : Env) (credential : az_credential_client_secret)
    (context : Nat) (out_token : _az_token) (w : World) :
    forwards (_az_credential_client_secret_request_token cfg env credential context
      out_token w).2.2.trace = forwards w.trace := by
  rw [request_token_trace, forwards_append]
  split <;> simp [forwards]

/-! ## Token lifecycle -/

/-- C1 (token reuse): when the cached token is not expired at the time of the call, the policy
sends no token request (the trace gains no `token_request` event), leaves the whole
credential, and so the cached token with its bytes, length and expiry, unchanged, and the
only request it hands over (when the header buffer has room) carries as its last header
`authorization` with the meaningful bytes of the cached token. -/
theorem c1_token_reuse (cfg : Cfg) (env : Env) (policies : Nat)
    (credential : az_credential_client_secret) (ref_request : az_http_request)
    (response : az_http_response) (w : World)
    (h : (_az_token_expired env credential.token_credential.token w).1 = false) :
    let out := _az_credential_client_secret_apply_policy cfg env policies credential
      ref_request response w
    token_requests out.2.world.trace = token_requests w.trace
    ∧ out.2.credential = credential
    ∧ out.2.credential.token_credential.token.token = credential.token_credential.token.token
    ∧ out.2.credential.token_credential.token.token_length
        = credential.token_credential.token.token_length
    ∧ out.2.credential.token_credential.token.expiry = credential.token_credential.token.expiry
    ∧ out.2.world.trace = w.trace
        ++ (if ref_request.headers.length < ref_request.max_headers then
            [Event.next_policy policies
              { ref_request with headers := ref_request.headers
                  ++ [{ key := _az_auth_header_name
                        value := az_span.of (credential.token_credential.token.token.take
                          credential.token_credential.token.token_length.toNat) }] }]
          else []) := by
  intro out
  have hout : out = _az_credential_client_secret_apply_policy cfg env policies credential
      ref_request response w := rfl
  clear_value out
  rw [apply_policy_cached cfg env policies credential ref_request response w h] at hout
  by_cases hroom : ref_request.headers.length < ref_request.max_headers
  · rw [if_pos hroom] at hout
    rw [if_pos hroom]
    subst hout
    refine ⟨?_, rfl, rfl, rfl, rfl, rfl⟩
    simp [token_requests_append, token_requests]
  · rw [if_neg hroom] at hout
    rw [if_neg hroom]
    subst hout
    refine ⟨rfl, rfl, rfl, rfl, rfl, ?_⟩
    simp

/-- C1 at the sample request with the issued token in the cache: nothing is asked of the
token endpoint and the hand-over carries `Bearer AccessToken`. -/
theorem c1_token_reuse_witness :
    (_az_token_expired sample_env sample_credential_cached.token_credential.token
      sample_world).1 = false
    ∧ token_requests (_az_credential_client_secret_apply_policy sample_cfg sample_env 7
        sample_credential_cached sample_request sample_response sample_world).2.world.trace = []
    ∧ forwards (_az_credential_client_secret_apply_policy sample_cfg sample_env 7
        sample_credential_cached sample_request sample_response sample_world).2.world.trace
      = [(7, { sample_request with headers :=
          [{ key := AZ_SPAN_FROM_STR "authorization"
             value := AZ_SPAN_FROM_STR "Bearer AccessToken" }] })] :=
  ⟨by decide,
    (c1_token_reuse sample_cfg sample_env 7 sample_credential_cached sample_request
      sample_response sample_world (by decide)).1,
    by decide⟩

/-- C2 (token refresh): when the cached token is expired at the time of the call and the token
request succeeds, the trace gains exactly one `token_request` event (the request of the wire
format), placed before the hand-over to the remaining policies; the cache then holds the
token just issued, whose meaningful bytes are the bearer scheme followed by the access token
the endpoint answered with; and the request handed over (when the header buffer has room)
carries as its last header `authorization` with the bytes of that new token. -/
theorem c2_token_refresh (cfg : Cfg) (env : Env) (policies : Nat)
    (credential : az_credential_client_secret) (ref_request : az_http_request)
    (response : az_http_response) (w : World)
    (h : (_az_token_expired env credential.token_credential.token w).1 = true)
    (hok : az_failed (_az_credential_client_secret_request_token cfg env credential
      ref_request.context credential.token_credential.token
      { w with clock_reads := w.clock_reads + 1 }).1 = false) :
    let issued := (_az_credential_client_secret_request_token cfg env credential
      ref_request.context credential.token_credential.token
      { w with clock_reads := w.clock_reads + 1 }).2.1
    let out := _az_credential_client_secret_apply_policy cfg env policies credential
      ref_request response w
    out.2.world.trace = w.trace
        ++ [Event.token_request (aad_token_request cfg credential ref_request.context)]
        ++ (if ref_request.headers.length < ref_request.max_headers then
            [Event.next_policy policies
              { ref_request with headers := ref_request.headers
                  ++ [{ key := _az_auth_header_name, value := az_span.of issued.value }] }]
          else [])
    ∧ token_requests out.2.world.trace = token_requests w.trace
        ++ [aad_token_request cfg credential ref_request.context]
    ∧ out.2.credential.token_credential.token = issued
    ∧ ∃ access_token expires_in,
        env.token_endpoint { w with clock_reads := w.clock_reads + 1 }
            (aad_token_request cfg credential ref_request.context)
          = (az_result.AZ_OK, access_token, expires_in)
        ∧ issued.value = bearer_scheme ++ access_token := by
  intro issued out
  obtain ⟨_, access_token, expires_in, hep, hval, _, hw⟩ :=
    request_token_ok cfg env credential ref_request.context
      credential.token_credential.token { w with clock_reads := w.clock_reads + 1 } hok
  have hout : out = _az_credential_client_secret_apply_policy cfg env policies credential
      ref_request response w := rfl
  have hiss : issued = (_az_credential_client_secret_request_token cfg env credential
      ref_request.context credential.token_credential.token
      { w with clock_reads := w.clock_reads + 1 }).2.1 := rfl
  clear_value out issued
  rw [apply_policy_expired cfg env policies credential ref_request response w h _ rfl _ rfl,
    if_neg (by rw [hok]; exact Bool.false_ne_true), hw, ← hiss] at hout
  have htrace : out.2.world.trace = w.trace
      ++ [Event.token_request (aad_token_request cfg credential ref_request.context)]
      ++ (if ref_request.headers.length < ref_request.max_headers then
          [Event.next_policy policies
            { ref_request with headers := ref_request.headers
                ++ [{ key := _az_auth_header_name, value := az_span.of issued.value }] }]
        else []) := by
    by_cases hroom : ref_request.headers.length < ref_request.max_headers
    · rw [if_pos hroom] at hout
      rw [if_pos hroom, hout]
    · rw [if_neg hroom] at hout
      rw [if_neg hroom, hout]
      simp
  refine ⟨htrace, ?_, ?_, access_token, expires_in, hep, by rw [hiss]; exact hval⟩
  · rw [htrace]
    by_cases hroom : ref_request.headers.length < ref_request.max_headers
    · simp [hroom, token_requests_append, token_requests]
    · simp [hroom, token_requests_append, token_requests]
  · by_cases hroom : ref_request.headers.length < ref_request.max_headers
    · rw [if_pos hroom] at hout
      rw [hout]
    · rw [if_neg hroom] at hout
      rw [hout]

/-- C2 at the sample request with an empty cache: one token request, then the hand-over with
`Bearer AccessToken`, and the cache holds that token. -/
theorem c2_token_refresh_witness :
    (_az_credential_client_secret_apply_policy sample_cfg sample_env 7 sample_credential
      sample_request sample_response sample_world).2.world.trace
      = [Event.token_request (aad_token_request sample_cfg sample_credential 0),
         Event.next_policy 7 { sample_request with headers :=
          [{ key := AZ_SPAN_FROM_STR "authorization"
             value := AZ_SPAN_FROM_STR "Bearer AccessToken" }] }]
    ∧ (_az_credential_client_secret_apply_policy sample_cfg sample_env 7 sample_credential
        sample_request sample_response sample_world).2.credential = sample_credential_cached :=
  ⟨(c2_token_refresh sample_cfg sample_env 7 sample_credential sample_request sample_response
      sample_world (by decide) (by decide)).1,
    by decide⟩

/-- C3 (token acquisition failure): when the cached token is expired and the token request
returns an error, the policy returns that same error, the request is as it was on entry (no
authorization header is appended), nothing is handed to the remaining policies, and the
credential, so also its cached token, is unchanged. -/
theorem c3_token_acquisition_failure (cfg : Cfg) (env : Env) (policies : Nat)
    (credential : az_credential_client_secret) (ref_request : az_http_request)
    (response : az_http_response) (w : World)
    (h : (_az_token_expired env credential.token_credential.token w).1 = true)
    (hfail : az_failed (_az_credential_client_secret_request_token cfg env credential
      ref_request.context credential.token_credential.token
      { w with clock_reads := w.clock_reads + 1 }).1 = true) :
    let out := _az_credential_client_secret_apply_policy cfg env policies credential
      ref_request response w
    out.1 = (_az_credential_client_secret_request_token cfg env credential
      ref_request.context credential.token_credential.token
      { w with clock_reads := w.clock_reads + 1 }).1
    ∧ az_failed out.1 = true
    ∧ out.2.request = ref_request
    ∧ out.2.response = response
    ∧ forwards out.2.world.trace = forwards w.trace
    ∧ out.2.credential = credential := by
  intro out
  have hout : out = _az_credential_client_secret_apply_policy cfg env policies credential
      ref_request response w := rfl
  clear_value out
  rw [apply_policy_expired cfg env policies credential ref_request response w h _ rfl _ rfl,
    if_pos hfail] at hout
  subst hout
  exact ⟨rfl, hfail, rfl, rfl, request_token_forwards _ _ _ _ _ _, rfl⟩

/-- C3 at the sample request with an empty cache and an unreachable token endpoint: the
transport error comes back and the request still has no header. -/
theorem c3_token_acquisition_failure_witness :
    (_az_credential_client_secret_apply_policy sample_cfg sample_env_down 7 sample_credential
      sample_request sample_response sample_world).1 = az_result.TransportError
    ∧ (_az_credential_client_secret_apply_policy sample_cfg sample_env_down 7 sample_credential
      sample_request sample_response sample_world).2.request = sample_request :=
  ⟨by decide,
    (c3_token_acquisition_failure sample_cfg sample_env_down 7 sample_credential sample_request
      sample_response sample_world (by decide) (by decide)).2.2.1⟩

/-! ## Where cached tokens come from -/

/-- An all-zero cache counts as expired at every clock reading from 0 on, so from then on a
cached token that is not expired is one the acquisition path stored. -/
theorem zero_token_expired (cfg : Cfg) (env : Env) (w : World)
    (hclock : 0 ≤ env.az_platform_clock_msec w.clock_reads) :
    (_az_token_expired env (_az_token.zero cfg) w).1 = true := by
  simpa [_az_token_expired, _az_token.zero] using hclock

/-! ## The injected header and the hand-over -/

/-- C5 as stated fails: with a full header buffer, an expired cached token and an unreachable
token endpoint, the policy returns the transport error, not `BufferTooSmall`. -/
theorem c5_header_capacity_counterexample :
    sample_request_full.max_headers ≤ sample_request_full.headers.length
    ∧ (_az_credential_client_secret_apply_policy sample_cfg sample_env_down 7 sample_credential
        sample_request_full sample_response sample_world).1 = az_result.TransportError
    ∧ (_az_credential_client_secret_apply_policy sample_cfg sample_env_down 7 sample_credential
        sample_request_full sample_response sample_world).1 ≠ az_result.BufferTooSmall := by
  decide

/-- C5, amended (header-capacity overflow): when the header buffer of the request cannot hold
one more header, the policy fails, hands nothing to the remaining policies and leaves the
request, so all its headers, as it was on entry. The error is `BufferTooSmall` whenever a
token is at hand (the cached one is not expired, or the token request succeeded); when the
cached token is expired and the token request fails, the error is the one of the token
request. -/
theorem c5_header_capacity (cfg : Cfg) (env : Env) (policies : Nat)
    (credential : az_credential_client_secret) (ref_request : az_http_request)
    (response : az_http_response) (w : World)
    (hfull : ref_request.max_headers ≤ ref_request.headers.length) :
    let expired := (_az_token_expired env credential.token_credential.token w).1
    let rt := _az_credential_client_secret_request_token cfg env credential
      ref_request.context credential.token_credential.token
      { w with clock_reads := w.clock_reads + 1 }
    let out := _az_credential_client_secret_apply_policy cfg env policies credential
      ref_request response w
    az_failed out.1 = true
    ∧ forwards out.2.world.trace = forwards w.trace
    ∧ out.2.request = ref_request
    ∧ out.2.request.headers = ref_request.headers
    ∧ (expired = false ∨ az_failed rt.1 = false → out.1 = az_result.BufferTooSmall)
    ∧ (expired = true ∧ az_failed rt.1 = true → out.1 = rt.1) := by
  intro expired rt out
  have hout : out = _az_credential_client_secret_apply_policy cfg env policies credential
      ref_request response w := rfl
  have hexp : expired = (_az_token_expired env credential.token_credential.token w).1 := rfl
  have hrt : rt = _az_credential_client_secret_request_token cfg env credential
      ref_request.context credential.token_credential.token
      { w with clock_reads := w.clock_reads + 1 } := rfl
  clear_value out expired rt
  have hroom : ¬ ref_request.headers.length < ref_request.max_headers := Nat.not_lt.mpr hfull
  have hb : az_failed az_result.BufferTooSmall = true := rfl
  by_cases h : expired = true
  · rw [apply_policy_expired cfg env policies credential ref_request response w (hexp ▸ h)
      rt hrt _ rfl] at hout
    by_cases hfail : az_failed rt.1 = true
    · rw [if_pos hfail] at hout
      subst hout
      refine ⟨hfail, ?_, rfl, rfl, ?_, fun _ => rfl⟩
      · rw [hrt]
        exact request_token_forwards _ _ _ _ _ _
      · rintro (h1 | h1)
        · rw [h] at h1
          exact absurd h1 (by decide)
        · rw [hfail] at h1
          exact absurd h1 (by decide)
    · rw [if_neg hfail, if_neg hroom] at hout
      subst hout
      refine ⟨hb, ?_, rfl, rfl, fun _ => rfl, fun h2 => absurd h2.2 hfail⟩
      rw [hrt]
      exact request_token_forwards _ _ _ _ _ _
  · have h0 : (_az_token_expired env credential.token_credential.token w).1 = false := by
      rw [← hexp]
      simpa using h
    rw [apply_policy_cached cfg env policies credential ref_request response w h0,
      if_neg hroom] at hout
    subst hout
    exact ⟨hb, rfl, rfl, rfl, fun _ => rfl, fun h2 => absurd h2.1 h⟩

/-- C5 at the full sample request with the issued token in the cache: `BufferTooSmall`, and
the one header of the request is still there. -/
theorem c5_header_capacity_witness :
    (_az_credential_client_secret_apply_policy sample_cfg sample_env 7 sample_credential_cached
      sample_request_full sample_response sample_world).1 = az_result.BufferTooSmall
    ∧ (_az_credential_client_secret_apply_policy sample_cfg sample_env 7
        sample_credential_cached sample_request_full sample_response
        sample_world).2.request.headers
      = [{ key := AZ_SPAN_FROM_STR "x-ms-date", value := AZ_SPAN_FROM_STR "now" }] :=
  ⟨(c5_header_capacity sample_cfg sample_env 7 sample_credential_cached sample_request_full
      sample_response sample_world (by decide)).2.2.2.2.1 (Or.inl (by decide)),
    by decide⟩

/-- C6 (pass-through): when obtaining the token succeeds (the cached token is not expired, or
the token request succeeds) and the header buffer has room for the authorization header, the
policy hands the request to the remaining policies exactly once, and what it returns is
exactly the result of that hand-over, success or error, together with the request and the
response the remaining policies left; in every other case it hands over nothing. -/
theorem c6_pass_through (cfg : Cfg) (env : Env) (policies : Nat)
    (credential : az_credential_client_secret) (ref_request : az_http_request)
    (response : az_http_response) (w : World) :
    let expired := (_az_token_expired env credential.token_credential.token w).1
    let rt := _az_credential_client_secret_request_token cfg env credential
      ref_request.context credential.token_credential.token
      { w with clock_reads := w.clock_reads + 1 }
    let token := if expired = true then rt.2.1 else credential.token_credential.token
    let world := if expired = true then rt.2.2 else { w with clock_reads := w.clock_reads + 1 }
    let request := { ref_request with headers := ref_request.headers
      ++ [{ key := _az_auth_header_name, value := az_span.of token.value }] }
    let next := env._az_http_pipeline_nextpolicy policies world request response
    let out := _az_credential_client_secret_apply_policy cfg env policies credential
      ref_request response w
    ((expired = false ∨ az_failed rt.1 = false)
        ∧ ref_request.headers.length < ref_request.max_headers →
      forwards out.2.world.trace = forwards w.trace ++ [(policies, request)]
      ∧ out.1 = next.1 ∧ out.2.request = next.2.1 ∧ out.2.response = next.2.2)
    ∧ (¬ ((expired = false ∨ az_failed rt.1 = false)
        ∧ ref_request.headers.length < ref_request.max_headers) →
      forwards out.2.world.trace = forwards w.trace ∧ az_failed out.1 = true) := by
  intro expired rt token world request next out
  have hout : out = _az_credential_client_secret_apply_policy cfg env policies credential
      ref_request response w := rfl
  have hexp : expired = (_az_token_expired env credential.token_credential.token w).1 := rfl
  have hrt : rt = _az_credential_client_secret_request_token cfg env credential
      ref_request.context credential.token_credential.token
      { w with clock_reads := w.clock_reads + 1 } := rfl
  have hfw : forwards rt.2.2.trace = forwards w.trace := by
    rw [hrt]
    exact request_token_forwards _ _ _ _ _ _
  have hb : az_failed az_result.BufferTooSmall = true := rfl
  clear_value out
  by_cases h : expired = true
  · have htoken : token = rt.2.1 := if_pos h
    have hworld : world = rt.2.2 := if_pos h
    rw [apply_policy_expired cfg env policies credential ref_request response w (hexp ▸ h)
      rt hrt request (by rw [← htoken])] at hout
    by_cases hfail : az_failed rt.1 = true
    · rw [if_pos hfail] at hout
      subst hout
      refine ⟨fun hc => ?_, fun _ => ⟨hfw, hfail⟩⟩
      rcases hc.1 with h1 | h1
      · rw [h] at h1
        exact absurd h1 (by decide)
      · rw [hfail] at h1
        exact absurd h1 (by decide)
    · rw [if_neg hfail] at hout
      by_cases hroom : ref_request.headers.length < ref_request.max_headers
      · rw [if_pos hroom] at hout
        subst hout
        refine ⟨fun _ => ⟨?_, ?_, ?_, ?_⟩, fun hc => absurd ⟨Or.inr (by simpa using hfail), hroom⟩ hc⟩
        · simp only [forwards_append, hfw, forwards]
        · show _ = (env._az_http_pipeline_nextpolicy policies world request response).1
          rw [hworld]
        · show _ = (env._az_http_pipeline_nextpolicy policies world request response).2.1
          rw [hworld]
        · show _ = (env._az_http_pipeline_nextpolicy policies world request response).2.2
          rw [hworld]
      · rw [if_neg hroom] at hout
        subst hout
        exact ⟨fun hc => absurd hc.2 hroom, fun _ => ⟨hfw, hb⟩⟩
  · have h0 : (_az_token_expired env credential.token_credential.token w).1 = false := by
      rw [← hexp]
      simpa using h
    have htoken : token = credential.token_credential.token := if_neg h
    have hworld : world = { w with clock_reads := w.clock_reads + 1 } := if_neg h
    rw [apply_policy_cached cfg env policies credential ref_request response w h0] at hout
    by_cases hroom : ref_request.headers.length < ref_request.max_headers
    · rw [if_pos hroom] at hout
      subst hout
      refine ⟨fun _ => ⟨?_, ?_, ?_, ?_⟩, fun hc => absurd ⟨Or.inl (by simpa using h), hroom⟩ hc⟩
      · show forwards (w.trace ++ _) = _
        simp only [forwards_append, forwards]
        show _ = forwards w.trace ++ [(policies, { ref_request with headers :=
          ref_request.headers ++ [{ key := _az_auth_header_name,
                                    value := az_span.of token.value }] })]
        rw [htoken]
      · show _ = (env._az_http_pipeline_nextpolicy policies world
          { ref_request with headers := ref_request.headers
              ++ [{ key := _az_auth_header_name, value := az_span.of token.value }] }
          response).1
        rw [hworld, htoken]
      · show _ = (env._az_http_pipeline_nextpolicy policies world
          { ref_request with headers := ref_request.headers
              ++ [{ key := _az_auth_header_name, value := az_span.of token.value }] }
          response).2.1
        rw [hworld, htoken]
      · show _ = (env._az_http_pipeline_nextpolicy policies world
          { ref_request with headers := ref_request.headers
              ++ [{ key := _az_auth_header_name, value := az_span.of token.value }] }
          response).2.2
        rw [hworld, htoken]
    · rw [if_neg hroom] at hout
      subst hout
      exact ⟨fun hc => absurd hc.2 hroom, fun _ => ⟨rfl, hb⟩⟩

/-- C6 at the sample request with an empty cache: one hand-over, and the result is the one of
the transport. -/
theorem c6_pass_through_witness :
    forwards (_az_credential_client_secret_apply_policy sample_cfg sample_env 7
      sample_credential sample_request sample_response sample_world).2.world.trace
      = [(7, { sample_request with headers :=
          [{ key := AZ_SPAN_FROM_STR "authorization"
             value := AZ_SPAN_FROM_STR "Bearer AccessToken" }] })]
    ∧ (_az_credential_client_secret_apply_policy sample_cfg sample_env 7
        sample_credential sample_request sample_response sample_world).2.response
      = { http_response := AZ_SPAN_FROM_STR "HTTP/1.1 200 OK" } :=
  ⟨((c6_pass_through sample_cfg sample_env 7 sample_credential sample_request sample_response
      sample_world).1 ⟨Or.inr (by decide), by decide⟩).1,
    by decide⟩

/-! ## The token request on the wire -/

/-- C7 (token request wire format): whatever the credential, the context, the collaborators
and the history, `_az_credential_client_secret_request_token` sends at most one token
request, and the request it sends is a POST whose URL is the authority followed by the tenant
id followed by `/oauth2/v2.0/token`, whose body is
`grant_type=client_credentials&client_id=<client_id>&scope=<scopes>&client_secret=<client_secret>`
in that order, whose only header is `Content-Type: application/x-www-form-urlencoded`, and
whose context is the one given (the context of the outgoing request). The request is sent
exactly when URL, body and header fit the fixed buffers; otherwise the call fails with
`BufferTooSmall` and sends nothing. The scopes are those the credential holds at the call:
after `set_scopes` the body carries the new scopes. -/
theorem c7_token_request_wire_format (cfg : Cfg) (env : Env)
    (credential : az_credential_client_secret) (context : Nat) (out_token : _az_token)
    (w : World) :
    let out := _az_credential_client_secret_request_token cfg env credential context
      out_token w
    out.2.2.trace = w.trace
        ++ (if aad_request_fits cfg credential then
            [Event.token_request
              { context := context
                method := AZ_SPAN_FROM_STR "POST"
                url := az_span.of (credential.authority.bytes ++ credential.tenant_id.bytes
                  ++ "/oauth2/v2.0/token".toList)
                headers :=
                  [{ key := AZ_SPAN_FROM_STR "Content-Type"
                     value := AZ_SPAN_FROM_STR "application/x-www-form-urlencoded" }]
                max_headers := cfg._az_AAD_REQUEST_HEADER_BUFFER_SIZE / cfg.sizeof_az_pair
                body := az_span.of ("grant_type=client_credentials&client_id=".toList
                  ++ credential.client_id.bytes ++ "&scope=".toList ++ credential.scopes.bytes
                  ++ "&client_secret=".toList ++ credential.client_secret.bytes) }]
          else [])
    ∧ (¬ aad_request_fits cfg credential → out = (az_result.BufferTooSmall, out_token, w))
    ∧ ∀ scopes : az_span,
        aad_request_fits cfg (_az_credential_client_secret_set_scopes credential scopes).2 →
        ∃ request,
          token_requests (_az_credential_client_secret_request_token cfg env
            (_az_credential_client_secret_set_scopes credential scopes).2 context out_token
            w).2.2.trace = token_requests w.trace ++ [request]
          ∧ request.body = az_span.of ("grant_type=client_credentials&client_id=".toList
              ++ credential.client_id.bytes ++ "&scope=".toList ++ scopes.bytes
              ++ "&client_secret=".toList ++ credential.client_secret.bytes) := by
  intro out
  refine ⟨request_token_trace cfg env credential context out_token w,
    fun hfit => request_token_not_fits cfg env credential context out_token w hfit,
    fun scopes hfit => ⟨aad_token_request cfg
      (_az_credential_client_secret_set_scopes credential scopes).2 context, ?_, rfl⟩⟩
  rw [request_token_trace, if_pos hfit, token_requests_append]
  rfl

/-- C7 at the sample credential: the POST to
`https://login.microsoftonline.com/TenantID/oauth2/v2.0/token` with the body of the tests. -/
theorem c7_token_request_wire_format_witness :
    (_az_credential_client_secret_request_token sample_cfg sample_env sample_credential 0
      (_az_token.zero sample_cfg) sample_world).2.2.trace
      = [Event.token_request
          { context := 0
            method := AZ_SPAN_FROM_STR "POST"
            url := AZ_SPAN_FROM_STR "https://login.microsoftonline.com/TenantID/oauth2/v2.0/token"
            headers :=
              [{ key := AZ_SPAN_FROM_STR "Content-Type"
                 value := AZ_SPAN_FROM_STR "application/x-www-form-urlencoded" }]
            max_headers := 10
            body := AZ_SPAN_FROM_STR
              "grant_type=client_credentials&client_id=ClientID&scope=Scopes&client_secret=ClientSecret" }] :=
  (c7_token_request_wire_format sample_cfg sample_env sample_credential 0
    (_az_token.zero sample_cfg) sample_world).1

/-! ## Construction and scopes -/

/-- C8 (default authority): with a non-null output and non-empty tenant id, client id and
client secret, `az_credential_client_secret_init` succeeds and writes a credential whose
authority is `https://login.microsoftonline.com/` when the authority argument has size 0
(the null span included) and the authority argument itself otherwise; tenant id, client id
and client secret are the arguments, the scopes are the empty (null) span, the token cache is
all zero, and the two dispatch functions are the client-secret ones. -/
theorem c8_default_authority (cfg : Cfg) (old : az_credential_client_secret)
    (tenant_id client_id client_secret authority : az_span)
    (ht : 0 < az_span_size tenant_id) (hc : 0 < az_span_size client_id)
    (hs : 0 < az_span_size client_secret) :
    az_credential_client_secret_init cfg (some old) tenant_id client_id client_secret authority
      = (call_end.returned az_result.AZ_OK,
          some
            { credential :=
                { apply_credential_policy :=
                    _az_http_policy_process_fn.client_secret_apply_policy
                  set_scopes := _az_credential_set_scopes_fn.client_secret_set_scopes }
              token_credential :=
                { token := { token := zero_buffer cfg.token_buffer_size
                             token_length := 0
                             expiry := 0 } }
              tenant_id := tenant_id
              client_id := client_id
              client_secret := client_secret
              scopes := az_span.null
              authority :=
                if az_span_size authority = 0 then
                  az_span.of "https://login.microsoftonline.com/".toList
                else authority })
    ∧ az_credential_client_secret_init cfg (some old) tenant_id client_id client_secret
        az_span.null
      = az_credential_client_secret_init cfg (some old) tenant_id client_id client_secret
        (az_span.of []) := by
  have valid : ∀ s : az_span, 0 < az_span_size s → _az_span_is_valid s 1 false = true := by
    intro s h
    cases s with
    | null => exact absurd h (by decide)
    | of bs => simpa [_az_span_is_valid, az_span_size, az_span.bytes] using h
  have valid0 : ∀ s : az_span, _az_span_is_valid s 0 true = true := by
    intro s
    cases s <;> simp [_az_span_is_valid]
  have hinit : ∀ a : az_span,
      az_credential_client_secret_init cfg (some old) tenant_id client_id client_secret a
        = (call_end.returned az_result.AZ_OK,
            some
              { credential :=
                  { apply_credential_policy :=
                      _az_http_policy_process_fn.client_secret_apply_policy
                    set_scopes := _az_credential_set_scopes_fn.client_secret_set_scopes }
                token_credential := { token := _az_token.zero cfg }
                tenant_id := tenant_id
                client_id := client_id
                client_secret := client_secret
                scopes := az_span.null
                authority :=
                  if az_span_size a > 0 then a else az_aad_global_authority }) := by
    intro a
    simp [az_credential_client_secret_init, valid tenant_id ht, valid client_id hc,
      valid client_secret hs, valid0 a]
  refine ⟨?_, ?_⟩
  · rw [hinit authority]
    by_cases h0 : az_span_size authority = 0
    · simp [h0, _az_token.zero, az_aad_global_authority, AZ_SPAN_FROM_STR]
    · have hpos : az_span_size authority > 0 := Nat.pos_of_ne_zero h0
      simp [h0, hpos, _az_token.zero]
  · rw [hinit, hinit]
    rfl

/-- C8 at the arguments of the tests, with the null authority. -/
theorem c8_default_authority_witness :
    az_credential_client_secret_init sample_cfg (some sample_credential_cached)
      (AZ_SPAN_FROM_STR "TenantID") (AZ_SPAN_FROM_STR "ClientID")
      (AZ_SPAN_FROM_STR "ClientSecret") az_span.null
      = (call_end.returned az_result.AZ_OK,
          some (_az_credential_client_secret_set_scopes sample_credential az_span.null).2) :=
  (c8_default_authority sample_cfg sample_credential_cached (AZ_SPAN_FROM_STR "TenantID")
    (AZ_SPAN_FROM_STR "ClientID") (AZ_SPAN_FROM_STR "ClientSecret") az_span.null
    (by decide) (by decide) (by decide)).1

/-- C9 (set_scopes): for every credential and every scopes view, the client-secret
`set_scopes` returns `AZ_OK`, the credential then holds the given scopes, and the cached token
(bytes, length, expiry), tenant id, client id, client secret, authority and both dispatch
functions are as before. -/
theorem c9_set_scopes (ref_credential : az_credential_client_secret) (scopes : az_span) :
    let out := _az_credential_client_secret_set_scopes ref_credential scopes
    out.1 = az_result.AZ_OK
    ∧ out.2.scopes = scopes
    ∧ out.2.token_credential.token.token = ref_credential.token_credential.token.token
    ∧ out.2.token_credential.token.token_length
        = ref_credential.token_credential.token.token_length
    ∧ out.2.token_credential.token.expiry = ref_credential.token_credential.token.expiry
    ∧ out.2.token_credential = ref_credential.token_credential
    ∧ out.2.tenant_id = ref_credential.tenant_id
    ∧ out.2.client_id = ref_credential.client_id
    ∧ out.2.client_secret = ref_credential.client_secret
    ∧ out.2.authority = ref_credential.authority
    ∧ out.2.credential.apply_credential_policy
        = ref_credential.credential.apply_credential_policy
    ∧ out.2.credential.set_scopes = ref_credential.credential.set_scopes :=
  ⟨rfl, rfl, rfl, rfl, rfl, rfl, rfl, rfl, rfl, rfl, rfl, rfl⟩

theorem expiration_step_eq_min (a b : Int) : (if a < b then a else b) = min b a := by
  rw [min_def]
  split <;> split <;> omega

theorem chain_minimum_min (a b : Int) (rest : List (Nat × az_context)) :
    chain_minimum (min a b) rest = min a (chain_minimum b rest) := by
  cases rest with
  | nil => rfl
  | cons x rest => simp only [chain_minimum, min_assoc]

theorem chain_minimum_le_own (own : Int) (rest : List (Nat × az_context)) :
    chain_minimum own rest ≤ own := by
  cases rest with
  | nil => exact le_refl _
  | cons x rest => exact min_le_left _ _

theorem chain_minimum_le_of_mem (own : Int) (rest : List (Nat × az_context))
    (x : Nat × az_context) (hx : x ∈ rest) : chain_minimum own rest ≤ x.2.expiration := by
  induction rest generalizing own with
  | nil => exact absurd hx (List.not_mem_nil _)
  | cons y rest ih =>
    rcases List.mem_cons.1 hx with h | h
    · subst h
      exact le_trans (min_le_right _ _) (chain_minimum_le_own _ _)
    · exact le_trans (min_le_right _ _) (ih _ h)

theorem chain_minimum_attained (own : Int) (rest : List (Nat × az_context)) :
    chain_minimum own rest = own ∨ ∃ x ∈ rest, chain_minimum own rest = x.2.expiration := by
  induction rest generalizing own with
  | nil => exact Or.inl rfl
  | cons y rest ih =>
    simp only [chain_minimum]
    rcases min_choice own (chain_minimum y.2.expiration rest) with h | h
    · exact Or.inl h
    · rw [h]
      rcases ih y.2.expiration with h2 | ⟨x, hx, h2⟩
      · exact Or.inr ⟨y, List.mem_cons_self _ _, h2⟩
      · exact Or.inr ⟨x, List.mem_cons_of_mem _ hx, h2⟩

/-- A chain found within some bound is found within every larger bound. -/
theorem ancestor_chain_more (mem : ContextMemory) (fuel : Nat) (p : Option Nat)
    (chain : List (Nat × az_context)) (h : ancestor_chain mem fuel p = some chain)
    (more : Nat) : ancestor_chain mem (fuel + more) p = some chain := by
  induction fuel generalizing p chain with
  | zero =>
    cases p with
    | none =>
      cases more <;> simpa [ancestor_chain] using h
    | some c => simp [ancestor_chain] at h
  | succ fuel ih =>
    cases p with
    | none => simpa [ancestor_chain] using h
    | some c =>
      rw [Nat.add_right_comm]
      simp only [ancestor_chain] at h ⊢
      cases hm : mem c with
      | none => simp [hm] at h
      | some node =>
        simp only [hm] at h ⊢
        cases hr : ancestor_chain mem fuel node.parent with
        | none => simp [hr] at h
        | some rest =>
          rw [ih _ _ hr]
          simpa [hr] using h

/-- Every entry of a chain is the node that lives at its address. -/
theorem ancestor_chain_lookup (mem : ContextMemory) (fuel : Nat) (p : Option Nat)
    (chain : List (Nat × az_context)) (h : ancestor_chain mem fuel p = some chain)
    (x : Nat × az_context) (hx : x ∈ chain) : mem x.1 = some x.2 := by
  induction fuel generalizing p chain with
  | zero =>
    cases p with
    | none =>
      simp only [ancestor_chain, Option.some.injEq] at h
      subst h
      exact absurd hx (List.not_mem_nil _)
    | some c => simp [ancestor_chain] at h
  | succ fuel ih =>
    cases p with
    | none =>
      simp only [ancestor_chain, Option.some.injEq] at h
      subst h
      exact absurd hx (List.not_mem_nil _)
    | some c =>
      simp only [ancestor_chain] at h
      cases hm : mem c with
      | none => simp [hm] at h
      | some node =>
        simp only [hm] at h
        cases hr : ancestor_chain mem fuel node.parent with
        | none => simp [hr] at h
        | some rest =>
          simp only [hr, Option.some.injEq] at h
          subst h
          rcases List.mem_cons.1 hx with h1 | h1
          · subst h1
            exact hm
          · exact ih _ _ hr h1

/-- The walk over a chain returns the minimum of the expiration it starts with and the own
expirations of the nodes of the chain. -/
theorem get_expiration_walk_chain (mem : ContextMemory) (fuel : Nat) (p : Option Nat)
    (chain : List (Nat × az_context)) (h : ancestor_chain mem fuel p = some chain)
    (expiration : Int) :
    get_expiration_walk mem fuel p expiration = some (chain_minimum expiration chain) := by
  induction fuel generalizing p chain expiration with
  | zero =>
    cases p with
    | none =>
      simp only [ancestor_chain, Option.some.injEq] at h
      subst h
      rfl
    | some c => simp [ancestor_chain] at h
  | succ fuel ih =>
    cases p with
    | none =>
      simp only [ancestor_chain, Option.some.injEq] at h
      subst h
      rfl
    | some c =>
      simp only [ancestor_chain] at h
      simp only [get_expiration_walk]
      cases hm : mem c with
      | none => simp [hm] at h
      | some node =>
        simp only [hm] at h ⊢
        cases hr : ancestor_chain mem fuel node.parent with
        | none => simp [hr] at h
        | some rest =>
          simp only [hr, Option.some.injEq] at h
          subst h
          rw [ih _ _ hr, expiration_step_eq_min, chain_minimum_min]
          rfl

/-- The head of a chain that starts at an address is the node living there, and the rest is
the chain of its parent. -/
theorem ancestor_chain_cons (mem : ContextMemory) (fuel : Nat) (c : Nat)
    (chain : List (Nat × az_context)) (h : ancestor_chain mem fuel (some c) = some chain) :
    ∃ node rest, mem c = some node ∧ chain = (c, node) :: rest
      ∧ ancestor_chain mem fuel node.parent = some rest := by
  cases fuel with
  | zero => simp [ancestor_chain] at h
  | succ fuel =>
    simp only [ancestor_chain] at h
    cases hm : mem c with
    | none => simp [hm] at h
    | some node =>
      simp only [hm] at h
      cases hr : ancestor_chain mem fuel node.parent with
      | none => simp [hr] at h
      | some rest =>
        simp only [hr, Option.some.injEq] at h
        exact ⟨node, rest, rfl, h.symm, ancestor_chain_more mem fuel _ _ hr 1⟩

/-- The effective expiration of a node with a finite chain is the minimum over the chain. -/
theorem get_expiration_chain (mem : ContextMemory) (fuel : Nat) (c : Nat)
    (node : az_context) (rest : List (Nat × az_context))
    (h : ancestor_chain mem fuel (some c) = some ((c, node) :: rest)) :
    az_context_get_expiration mem fuel (some c)
      = some (chain_minimum node.expiration rest) := by
  obtain ⟨node2, rest2, hm, hc, hr⟩ := ancestor_chain_cons mem fuel c _ h
  obtain ⟨h1, h2⟩ := List.cons.inj hc
  have hn : node = node2 := (Prod.mk.inj h1).2
  subst hn
  subst h2
  have hc2 : context_or_application (some c) = c := rfl
  simp only [az_context_get_expiration, hc2, hm]
  exact get_expiration_walk_chain mem fuel _ _ hr _

/-! ## Effective expiration and cancellation -/

/-- C11 (effective expiration): for a context whose ancestor chain is finite (it ends at a
node without parent, the application root for the nodes the constructors make),
`az_context_get_expiration` returns a result, which is the minimum of the own expirations of
the context and of all its ancestors up to and including the last one: it is below each of
them and it is the own expiration of one of them. More fuel does not change the result. -/
theorem c11_effective_expiration (mem : ContextMemory) (fuel : Nat) (c : Nat)
    (node : az_context) (ancestors : List (Nat × az_context))
    (h : ancestor_chain mem fuel (some c) = some ((c, node) :: ancestors)) :
    az_context_get_expiration mem fuel (some c)
      = some (chain_minimum node.expiration ancestors)
    ∧ (∀ more, az_context_get_expiration mem (fuel + more) (some c)
        = some (chain_minimum node.expiration ancestors))
    ∧ (∀ x ∈ (c, node) :: ancestors,
        chain_minimum node.expiration ancestors ≤ x.2.expiration)
    ∧ (∃ x ∈ (c, node) :: ancestors,
        chain_minimum node.expiration ancestors = x.2.expiration) := by
  refine ⟨get_expiration_chain mem fuel c node ancestors h,
    fun more => get_expiration_chain mem (fuel + more) c node ancestors
      (ancestor_chain_more mem fuel _ _ h more), ?_, ?_⟩
  · intro x hx
    rcases List.mem_cons.1 hx with h1 | h1
    · subst h1
      exact chain_minimum_le_own _ _
    · exact chain_minimum_le_of_mem _ _ x h1
  · rcases chain_minimum_attained node.expiration ancestors with h1 | ⟨x, hx, h1⟩
    · exact ⟨(c, node), List.mem_cons_self _ _, h1⟩
    · exact ⟨x, List.mem_cons_of_mem _ hx, h1⟩

/-- C11 at the sample storage: the grandchild of the root, which never expires by itself,
expires at 500 with its parent. -/
theorem c11_effective_expiration_witness :
    az_context_get_expiration sample_memory 3 (some 2) = some 500 :=
  (c11_effective_expiration sample_memory 3 2
    (az_context_create_with_value (some 1) (some 71) (some 710))
    [(1, { parent := some 0, expiration := 500, key := some 70, value := some 700 }),
     (0, { parent := none, expiration := _az_CONTEXT_MAX_EXPIRATION, key := none,
           value := none })]
    (by decide)).1

/-- What lives at an address after a cancellation: the node that lived there, with the
expiration 0 when it is the node cancelled. -/
theorem az_context_cancel_lookup (mem : ContextMemory) (context : Option Nat) (c : Nat) :
    az_context_cancel mem context c
      = if c = context_or_application context then
          (mem c).map (fun node => { node with expiration := 0 })
        else mem c := by
  unfold az_context_cancel
  cases hm : mem (context_or_application context) with
  | none =>
    by_cases h : c = context_or_application context
    · rw [if_pos h, h]
      simp only [hm]
      rfl
    · rw [if_neg h]
  | some node =>
    by_cases h : c = context_or_application context
    · rw [if_pos h, h, hm]
      simp
    · rw [if_neg h]
      simp [Function.update, h]

/-- A cancellation keeps every chain: same addresses, same length. -/
theorem ancestor_chain_cancel (mem : ContextMemory) (context : Option Nat) (fuel : Nat)
    (p : Option Nat) (chain : List (Nat × az_context))
    (h : ancestor_chain mem fuel p = some chain) :
    ∃ chain2, ancestor_chain (az_context_cancel mem context) fuel p = some chain2
      ∧ chain2.map Prod.fst = chain.map Prod.fst := by
  induction fuel generalizing p chain with
  | zero =>
    cases p with
    | none =>
      simp only [ancestor_chain, Option.some.injEq] at h
      subst h
      exact ⟨[], rfl, rfl⟩
    | some c => simp [ancestor_chain] at h
  | succ fuel ih =>
    cases p with
    | none =>
      simp only [ancestor_chain, Option.some.injEq] at h
      subst h
      exact ⟨[], rfl, rfl⟩
    | some c =>
      simp only [ancestor_chain] at h
      cases hm : mem c with
      | none => simp [hm] at h
      | some node =>
        simp only [hm] at h
        cases hr : ancestor_chain mem fuel node.parent with
        | none => simp [hr] at h
        | some rest =>
          simp only [hr, Option.some.injEq] at h
          subst h
          obtain ⟨rest2, hr2, hfst⟩ := ih _ _ hr
          have hl := az_context_cancel_lookup mem context c
          rw [hm] at hl
          by_cases hc : c = context_or_application context
          · rw [if_pos hc] at hl
            refine ⟨(c, { node with expiration := 0 }) :: rest2, ?_, ?_⟩
            · simp only [ancestor_chain, hl, Option.map_some', hr2]
            · simp [hfst]
          · rw [if_neg hc] at hl
            refine ⟨(c, node) :: rest2, ?_, ?_⟩
            · simp only [ancestor_chain, hl, hr2]
            · simp [hfst]

/-- After the root is cancelled, the effective expiration of every context whose chain
reaches the root is at most 0. -/
theorem get_expiration_root_cancelled (mem : ContextMemory) (fuel : Nat) (c : Nat)
    (chain : List (Nat × az_context))
    (h : ancestor_chain mem fuel (some c) = some chain)
    (hroot : az_context_application ∈ chain.map Prod.fst) :
    ∃ expiration,
      az_context_get_expiration (az_context_cancel mem none) fuel (some c) = some expiration
      ∧ expiration ≤ 0 := by
  obtain ⟨chain2, h2, hfst⟩ := ancestor_chain_cancel mem none fuel _ _ h
  obtain ⟨node, rest, _, hc, _⟩ := ancestor_chain_cons _ fuel c _ h2
  subst hc
  refine ⟨_, get_expiration_chain _ fuel c node rest h2, ?_⟩
  rw [← hfst] at hroot
  obtain ⟨x, hx, hx1⟩ := List.mem_map.1 hroot
  have hlook := ancestor_chain_lookup _ fuel _ _ h2 x hx
  have hl := az_context_cancel_lookup mem none x.1
  rw [hlook, hx1] at hl
  have hn : context_or_application none = az_context_application := rfl
  rw [hn, if_pos rfl] at hl
  have hexp : x.2.expiration = 0 := by
    cases hm : mem az_context_application with
    | none => rw [hm] at hl; exact absurd hl (by simp)
    | some root =>
      rw [hm] at hl
      simp only [Option.map_some', Option.some.injEq] at hl
      rw [hl]
  rw [← hexp]
  rcases List.mem_cons.1 hx with h1 | h1
  · rw [h1]
    exact chain_minimum_le_own _ _
  · exact chain_minimum_le_of_mem _ _ x h1

/-- C12 as stated fails: in the sample storage, after the root is cancelled, the grandchild of
the root has not expired at the current time 0, nor at any earlier time such as -5. -/
theorem c12_root_cancellation_counterexample :
    ancestor_chain sample_memory 3 (some 2)
      = some [(2, az_context_create_with_value (some 1) (some 71) (some 710)),
          (1, { parent := some 0, expiration := 500, key := some 70, value := some 700 }),
          (az_context_application,
            { parent := none, expiration := _az_CONTEXT_MAX_EXPIRATION, key := none,
              value := none })]
    ∧ is_int64 0 ∧ is_int64 (-5)
    ∧ az_context_has_expired (az_context_cancel sample_memory none) 3 (some 2) 0 = some false
    ∧ az_context_has_expired (az_context_cancel sample_memory none) 3 (some 2) (-5)
      = some false := by
  decide

/-- C12, amended (root cancellation cascades): after `az_context_cancel` is called with
`NULL`, `az_context_has_expired` returns true for every context whose ancestor chain reaches
the application root, for every current time after 0. -/
theorem c12_root_cancellation (mem : ContextMemory) (fuel : Nat) (c : Nat)
    (chain : List (Nat × az_context)) (current_time : Int)
    (h : ancestor_chain mem fuel (some c) = some chain)
    (hroot : az_context_application ∈ chain.map Prod.fst)
    (hnow : 0 < current_time) :
    az_context_has_expired (az_context_cancel mem none) fuel (some c) current_time
      = some true := by
  obtain ⟨expiration, he, hle⟩ := get_expiration_root_cancelled mem fuel c chain h hroot
  simp only [az_context_has_expired, he, Option.map_some', Option.some.injEq,
    decide_eq_true_eq]
  omega

/-- C12 at the sample storage: once the root is cancelled the grandchild has expired at
time 1. -/
theorem c12_root_cancellation_witness :
    az_context_has_expired (az_context_cancel sample_memory none) 3 (some 2) 1 = some true :=
  c12_root_cancellation sample_memory 3 2
    [(2, az_context_create_with_value (some 1) (some 71) (some 710)),
     (1, { parent := some 0, expiration := 500, key := some 70, value := some 700 }),
     (0, { parent := none, expiration := _az_CONTEXT_MAX_EXPIRATION, key := none,
           value := none })]
    1 (by decide) (by decide) (by decide)

/-- C13 as stated fails: after the node at address 1 of the sample storage is cancelled its
own expiration is 0, and the `int64_t` timestamp -1 is smaller than that. -/
theorem c13_cancel_counterexample :
    ∃ t node, is_int64 t
      ∧ az_context_cancel sample_memory (some 1) 1 = some node
      ∧ t < node.expiration :=
  ⟨-1, { parent := some 0, expiration := 0, key := some 70, value := some 700 },
    by decide, by decide, by decide⟩

/-- C13, amended (cancel): after `az_context_cancel(c)` the own expiration of the node is 0,
the instant the code calls the beginning of time: no timestamp from 0 on is smaller than it.
Parent, key and value of the node are unchanged, every other node is unchanged, and with
`NULL` the node modified is the application root. -/
theorem c13_cancel (mem : ContextMemory) (c : Nat) (node : az_context)
    (h : mem c = some node) :
    az_context_cancel mem (some c) c
      = some { parent := node.parent, expiration := 0, key := node.key, value := node.value }
    ∧ (∀ node2, az_context_cancel mem (some c) c = some node2 →
        node2.expiration = 0 ∧ ∀ t : Int, 0 ≤ t → node2.expiration ≤ t)
    ∧ (∀ other, other ≠ c → az_context_cancel mem (some c) other = mem other)
    ∧ az_context_cancel mem none = az_context_cancel mem (some az_context_application)
    ∧ (∀ other, other ≠ az_context_application → az_context_cancel mem none other = mem other)
    ∧ (∀ root, mem az_context_application = some root →
        az_context_cancel mem none az_context_application
          = some { parent := root.parent, expiration := 0, key := root.key,
                   value := root.value }) := by
  have hs : ∀ a : Nat, context_or_application (some a) = a := fun _ => rfl
  have hn : context_or_application none = az_context_application := rfl
  have hc : az_context_cancel mem (some c) c
      = some { parent := node.parent, expiration := 0, key := node.key,
               value := node.value } := by
    rw [az_context_cancel_lookup, hs, if_pos rfl, h]
    rfl
  refine ⟨hc, ?_, ?_, rfl, ?_, ?_⟩
  · intro node2 h2
    rw [hc] at h2
    have h3 := Option.some.inj h2
    subst h3
    exact ⟨rfl, fun t ht => ht⟩
  · intro other ho
    rw [az_context_cancel_lookup, hs, if_neg ho]
  · intro other ho
    rw [az_context_cancel_lookup, hn, if_neg ho]
  · intro root hr
    rw [az_context_cancel_lookup, hn, if_pos rfl, hr]
    rfl

/-- C13 at the node at address 1 of the sample storage. -/
theorem c13_cancel_witness :
    az_context_cancel sample_memory (some 1) 1
      = some { parent := some 0, expiration := 0, key := some 70, value := some 700 } :=
  (c13_cancel sample_memory 1
    { parent := some 0, expiration := 500, key := some 70, value := some 700 }
    (by decide)).1

/-! ## Value lookup -/

/-- A chain that starts at an address: the bound is positive, the head is the node living
there, and the rest is the chain of its parent within the bound less one. -/
theorem ancestor_chain_succ (mem : ContextMemory) (fuel : Nat) (c : Nat)
    (chain : List (Nat × az_context)) (h : ancestor_chain mem fuel (some c) = some chain) :
    ∃ f node rest, fuel = f + 1 ∧ mem c = some node ∧ chain = (c, node) :: rest
      ∧ ancestor_chain mem f node.parent = some rest := by
  cases fuel with
  | zero => simp [ancestor_chain] at h
  | succ fuel =>
    simp only [ancestor_chain] at h
    cases hm : mem c with
    | none => simp [hm] at h
    | some node =>
      simp only [hm] at h
      cases hr : ancestor_chain mem fuel node.parent with
      | none => simp [hr] at h
      | some rest =>
        simp only [hr, Option.some.injEq] at h
        exact ⟨fuel, node, rest, rfl, rfl, h.symm, hr⟩

theorem ancestor_chain_null (mem : ContextMemory) (fuel : Nat)
    (chain : List (Nat × az_context)) (h : ancestor_chain mem fuel none = some chain) :
    chain = [] := by
  cases fuel <;> simpa [ancestor_chain] using h.symm

/-- The lookup returns the value of the first node of the chain that carries the key. -/
theorem get_value_found (mem : ContextMemory) (key : Option Nat)
    (before : List (Nat × az_context)) (address : Nat) (node : az_context)
    (after : List (Nat × az_context)) (fuel : Nat) (p : Option Nat)
    (h : ancestor_chain mem fuel p = some (before ++ (address, node) :: after))
    (hk : node.key = key) (hb : ∀ x ∈ before, x.2.key ≠ key) :
    az_context_get_value mem fuel p key = some (Except.ok node.value) := by
  induction before generalizing fuel p with
  | nil =>
    cases p with
    | none => exact absurd (ancestor_chain_null mem fuel _ h) (by simp)
    | some c =>
      obtain ⟨f, node2, rest, hf, hm, hc, _⟩ := ancestor_chain_succ mem fuel c _ h
      subst hf
      simp only [List.nil_append, List.cons.injEq, Prod.mk.injEq] at hc
      obtain ⟨⟨_, hn⟩, _⟩ := hc
      subst hn
      simp only [az_context_get_value, hm, hk, if_true]
  | cons x before ih =>
    cases p with
    | none => exact absurd (ancestor_chain_null mem fuel _ h) (by simp)
    | some c =>
      obtain ⟨f, node2, rest, hf, hm, hc, hr⟩ := ancestor_chain_succ mem fuel c _ h
      subst hf
      simp only [List.cons_append, List.cons.injEq] at hc
      obtain ⟨hx, hrest⟩ := hc
      subst hrest
      have hx2 : node2.key ≠ key := by
        have := hb x (List.mem_cons_self _ _)
        rw [hx] at this
        exact this
      simp only [az_context_get_value, hm, hx2, if_false]
      exact ih f _ hr (fun y hy => hb y (List.mem_cons_of_mem _ hy))

/-- The lookup fails with `AZ_ERROR_ITEM_NOT_FOUND` when no node of the chain carries the
key. -/
theorem get_value_not_found (mem : ContextMemory) (key : Option Nat) (fuel : Nat)
    (p : Option Nat) (chain : List (Nat × az_context))
    (h : ancestor_chain mem fuel p = some chain) (hb : ∀ x ∈ chain, x.2.key ≠ key) :
    az_context_get_value mem fuel p key
      = some (Except.error az_result.AZ_ERROR_ITEM_NOT_FOUND) := by
  induction fuel generalizing p chain with
  | zero =>
    cases p with
    | none => rfl
    | some c => simp [ancestor_chain] at h
  | succ fuel ih =>
    cases p with
    | none => rfl
    | some c =>
      obtain ⟨f, node, rest, hf, hm, hc, hr⟩ := ancestor_chain_succ mem (fuel + 1) c _ h
      have hf2 : fuel = f := Nat.succ.inj hf
      subst hf2
      subst hc
      have hx : node.key ≠ key := hb (c, node) (List.mem_cons_self _ _)
      simp only [az_context_get_value, hm, hx, if_false]
      exact ih _ _ hr (fun y hy => hb y (List.mem_cons_of_mem _ hy))

/-- C14 (value lookup): for a context with a finite ancestor chain and a key,
`az_context_get_value` returns a result: success with the value of the nearest node of the
chain (the context itself included) whose key is the given pointer, and
`AZ_ERROR_ITEM_NOT_FOUND` when no node of the chain carries that pointer. Keys are compared as
pointers: whatever bytes the keys point to, a chain whose nodes carry only a different
pointer does not match, even when both point to equal bytes. -/
theorem c14_value_lookup (mem : ContextMemory) (fuel : Nat) (context : Option Nat)
    (key : Option Nat) (chain : List (Nat × az_context))
    (h : ancestor_chain mem fuel context = some chain) :
    (∀ before address node after,
      chain = before ++ (address, node) :: after → node.key = key →
      (∀ x ∈ before, x.2.key ≠ key) →
      az_context_get_value mem fuel context key = some (Except.ok node.value))
    ∧ ((∀ x ∈ chain, x.2.key ≠ key) →
      az_context_get_value mem fuel context key
        = some (Except.error az_result.AZ_ERROR_ITEM_NOT_FOUND))
    ∧ (∀ (content : Nat → List Char) (k1 k2 : Nat),
      content k1 = content k2 → k1 ≠ k2 → key = some k2 →
      (∀ x ∈ chain, x.2.key = none ∨ x.2.key = some k1) →
      az_context_get_value mem fuel context key
        = some (Except.error az_result.AZ_ERROR_ITEM_NOT_FOUND)) := by
  refine ⟨?_, get_value_not_found mem key fuel context chain h, ?_⟩
  · intro before address node after hc hk hb
    subst hc
    exact get_value_found mem key before address node after fuel context h hk hb
  · intro content k1 k2 _ hne hkey hall
    refine get_value_not_found mem key fuel context chain h (fun x hx => ?_)
    rw [hkey]
    rcases hall x hx with h1 | h1
    · rw [h1]
      exact fun h2 => Option.noConfusion h2
    · rw [h1]
      exact fun h2 => hne (Option.some.inj h2)

/-- C14 at the sample storage: from the grandchild of the root, key 70 is found at its
parent; when the grandchild binds key 70 too, its own value wins; key 72 is found nowhere. -/
theorem c14_value_lookup_witness :
    az_context_get_value sample_memory 3 (some 2) (some 70) = some (Except.ok (some 700))
    ∧ az_context_get_value sample_memory_shadowed 3 (some 2) (some 70)
      = some (Except.ok (some 710))
    ∧ az_context_get_value sample_memory 3 (some 2) (some 72)
      = some (Except.error az_result.AZ_ERROR_ITEM_NOT_FOUND) :=
  ⟨(c14_value_lookup sample_memory 3 (some 2) (some 70)
    [(2, az_context_create_with_value (some 1) (some 71) (some 710)),
     (1, { parent := some 0, expiration := 500, key := some 70, value := some 700 }),
     (0, { parent := none, expiration := _az_CONTEXT_MAX_EXPIRATION, key := none,
           value := none })]
    (by decide)).1
    [(2, az_context_create_with_value (some 1) (some 71) (some 710))] 1
    { parent := some 0, expiration := 500, key := some 70, value := some 700 }
    [(0, { parent := none, expiration := _az_CONTEXT_MAX_EXPIRATION, key := none,
           value := none })]
    rfl rfl (by decide),
    rfl, rfl⟩

/-! ## Constructors -/

/-- Storing a node at an address where no node lived keeps every chain of the storage. -/
theorem ancestor_chain_store_fresh (mem : ContextMemory) (address : Nat) (node : az_context)
    (hfresh : mem address = none) (fuel : Nat) (p : Option Nat)
    (chain : List (Nat × az_context)) (h : ancestor_chain mem fuel p = some chain) :
    ancestor_chain (Function.update mem address (some node)) fuel p = some chain := by
  induction fuel generalizing p chain with
  | zero =>
    cases p with
    | none => simpa [ancestor_chain] using h
    | some c => simp [ancestor_chain] at h
  | succ fuel ih =>
    cases p with
    | none => simpa [ancestor_chain] using h
    | some c =>
      obtain ⟨f, node2, rest, hf, hm, hc, hr⟩ := ancestor_chain_succ mem (fuel + 1) c _ h
      have hf2 : fuel = f := Nat.succ.inj hf
      subst hf2
      subst hc
      have hne : c ≠ address := by
        intro heq
        rw [heq, hfresh] at hm
        exact Option.noConfusion hm
      simp only [ancestor_chain, Function.update_noteq hne, hm, ih _ _ hr]

/-- C15 (value child): `az_context_create_with_value` returns a node whose parent is the given
parent, or the application root when none is given, whose key and value are the given ones,
and whose own expiration is the maximum `int64_t`, 0x7FFFFFFFFFFFFFFF. Once the node is
stored at a free address, its effective expiration is a result and equals the effective
expiration of its parent, the parent having a finite ancestor chain of nodes whose
expirations are `int64_t` values. -/
theorem c15_value_child (mem : ContextMemory) (fuel : Nat) (parent key value : Option Nat)
    (address : Nat) (chain : List (Nat × az_context))
    (hfresh : mem address = none)
    (hchain : ancestor_chain mem fuel (some (context_or_application parent)) = some chain)
    (hint : ∀ x ∈ chain, is_int64 x.2.expiration) :
    let node := az_context_create_with_value parent key value
    (∀ p, parent = some p → node.parent = some p)
    ∧ (parent = none → node.parent = some az_context_application)
    ∧ node.key = key
    ∧ node.value = value
    ∧ node.expiration = 0x7FFFFFFFFFFFFFFF
    ∧ (∀ t, is_int64 t → t ≤ node.expiration)
    ∧ az_context_get_expiration (Function.update mem address (some node)) (fuel + 1)
        (some address)
      = az_context_get_expiration mem fuel node.parent
    ∧ ∃ expiration, az_context_get_expiration mem fuel node.parent = some expiration := by
  intro node
  refine ⟨fun p hp => by subst hp; rfl, fun hp => by subst hp; rfl, rfl, rfl, rfl,
    fun t ht => ht.2, ?_⟩
  obtain ⟨pnode, rest, _, hc, _⟩ := ancestor_chain_cons mem fuel _ _ hchain
  subst hc
  have hparent : az_context_get_expiration mem fuel node.parent
      = some (chain_minimum pnode.expiration rest) :=
    get_expiration_chain mem fuel _ pnode rest hchain
  have hstored : ancestor_chain (Function.update mem address (some node)) (fuel + 1)
      node.parent = some ((context_or_application parent, pnode) :: rest) :=
    ancestor_chain_store_fresh mem address node hfresh (fuel + 1) _ _
      (ancestor_chain_more mem fuel _ _ hchain 1)
  have hs : context_or_application (some address) = address := rfl
  have hchild : az_context_get_expiration (Function.update mem address (some node))
      (fuel + 1) (some address)
      = some (chain_minimum node.expiration
          ((context_or_application parent, pnode) :: rest)) := by
    unfold az_context_get_expiration
    rw [hs, Function.update_same]
    exact get_expiration_walk_chain _ (fuel + 1) _ _ hstored _
  have hle : chain_minimum pnode.expiration rest ≤ node.expiration :=
    le_trans (chain_minimum_le_own _ _) (hint _ (List.mem_cons_self _ _)).2
  refine ⟨?_, _, hparent⟩
  rw [hchild, hparent]
  simp only [chain_minimum]
  rw [min_eq_right hle]

/-- C15 at the sample storage: a value child of the node at address 1, stored at address 3,
expires at 500 as its parent does. -/
theorem c15_value_child_witness :
    az_context_get_expiration
      (Function.update sample_memory 3
        (some (az_context_create_with_value (some 1) (some 72) (some 720)))) 3 (some 3)
      = az_context_get_expiration sample_memory 2 (some 1) :=
  (c15_value_child sample_memory 2 (some 1) (some 72) (some 720) 3
    [(1, { parent := some 0, expiration := 500, key := some 70, value := some 700 }),
     (0, { parent := none, expiration := _az_CONTEXT_MAX_EXPIRATION, key := none,
           value := none })]
    (by decide) (by decide) (by decide)).2.2.2.2.2.2.1

/-- C16 (expiring child): `az_context_create_with_expiration` returns a node whose parent is
the given parent, or the application root when none is given, whose own expiration is exactly
the given one, and whose key and value are null. -/
theorem c16_expiring_child (parent : Option Nat) (expiration : Int) :
    (∀ p, parent = some p →
      (az_context_create_with_expiration parent expiration).parent = some p)
    ∧ (parent = none →
      (az_context_create_with_expiration parent expiration).parent
        = some az_context_application)
    ∧ (az_context_create_with_expiration parent expiration).expiration = expiration
    ∧ (az_context_create_with_expiration parent expiration).key = none
    ∧ (az_context_create_with_expiration parent expiration).value = none :=
  ⟨fun p hp => by subst hp; rfl, fun hp => by subst hp; rfl, rfl, rfl, rfl⟩

/-! ## Component and command names -/

theorem occurs_at_cons (c : Char) (cs target : List Char) (j : Nat) :
    occurs_at (c :: cs) target (j + 1) ↔ occurs_at cs target j := by
  simp [occurs_at]

theorem first_occurrence_some (target : List Char) (source : List Char) (i k : Nat)
    (h : first_occurrence target source i = some k) :
    ∃ d, k = i + d ∧ occurs_at source target d ∧ ∀ j, j < d → ¬ occurs_at source target j := by
  induction source generalizing i with
  | nil =>
    simp only [first_occurrence] at h
    split at h
    · next hm =>
      refine ⟨0, ?_, ?_, fun j hj => absurd hj (Nat.not_lt_zero j)⟩
      · exact (Option.some.inj h).symm
      · simpa [occurs_at] using hm
    · exact Option.noConfusion h
  | cons c cs ih =>
    simp only [first_occurrence] at h
    split at h
    · next hm =>
      refine ⟨0, ?_, ?_, fun j hj => absurd hj (Nat.not_lt_zero j)⟩
      · exact (Option.some.inj h).symm
      · simpa [occurs_at] using hm
    · next hm =>
      obtain ⟨d, hk, hd, hmin⟩ := ih (i + 1) h
      refine ⟨d + 1, by omega, (occurs_at_cons c cs target d).2 hd, ?_⟩
      intro j hj
      cases j with
      | zero => simpa [occurs_at] using hm
      | succ j =>
        rw [occurs_at_cons]
        exact hmin j (by omega)

theorem first_occurrence_none (target : List Char) (source : List Char) (i : Nat)
    (h : first_occurrence target source i = none) : ∀ j, ¬ occurs_at source target j := by
  induction source generalizing i with
  | nil =>
    simp only [first_occurrence] at h
    split at h
    · exact Option.noConfusion h
    · next hm =>
      intro j
      simpa [occurs_at] using hm
  | cons c cs ih =>
    simp only [first_occurrence] at h
    split at h
    · exact Option.noConfusion h
    · next hm =>
      intro j
      cases j with
      | zero => simpa [occurs_at] using hm
      | succ j =>
        rw [occurs_at_cons]
        exact ih (i + 1) h j

/-- The span functions of the sample runs keep the contract. -/
theorem sample_span_functions_lawful : sample_span_functions.Lawful where
  find_first := by
    intro source target i hi hmin
    show (match first_occurrence target.bytes source.bytes 0 with
      | some i => (i : Int)
      | none => -1) = (i : Int)
    cases h : first_occurrence target.bytes source.bytes 0 with
    | none => exact absurd hi (first_occurrence_none _ _ _ h i)
    | some k =>
      obtain ⟨d, hk, hd, hdmin⟩ := first_occurrence_some _ _ _ _ h
      have hki : k = i := by
        rcases Nat.lt_trichotomy d i with h1 | h1 | h1
        · exact absurd hd (hmin d h1)
        · omega
        · exact absurd hi (hdmin i h1)
      rw [hki]
  find_none := by
    intro source target hnone
    show (match first_occurrence target.bytes source.bytes 0 with
      | some i => (i : Int)
      | none => -1) = -1
    cases h : first_occurrence target.bytes source.bytes 0 with
    | none => rfl
    | some k =>
      obtain ⟨d, _, hd, _⟩ := first_occurrence_some _ _ _ _ h
      exact absurd hd (hnone d)
  slice := by
    intro bytes start stop h1 h2
    show az_span.of ((bytes.drop (start : Int).toNat).take ((stop : Int) - (start : Int)).toNat)
      = az_span.of ((bytes.drop start).take (stop - start))
    have h3 : ((stop : Int) - (start : Int)).toNat = stop - start := by omega
    rw [h3, Int.toNat_ofNat]

theorem command_separator_bytes : command_separator.bytes = ['*'] := by
  decide

/-- The separator occurs at a position exactly when the byte there is the separator. -/
theorem occurs_at_separator_split (name command : List Char) :
    occurs_at (name ++ '*' :: command) ['*'] name.length := by
  simp [occurs_at]

theorem not_occurs_at_separator_before (name rest : List Char) (hname : '*' ∉ name)
    (j : Nat) (hj : j < name.length) : ¬ occurs_at (name ++ rest) ['*'] j := by
  intro h
  unfold occurs_at at h
  rw [List.drop_append_of_le_length (Nat.le_of_lt hj)] at h
  cases hd : name.drop j with
  | nil =>
    have := congrArg List.length hd
    simp at this
    omega
  | cons x xs =>
    rw [hd] at h
    simp only [List.length_singleton, List.cons_append, List.take_succ_cons, List.take_zero,
      List.cons.injEq, and_true] at h
    have hx : x ∈ name := List.mem_of_mem_drop (by rw [hd]; exact List.mem_cons_self _ _)
    rw [h] at hx
    exact hname hx

theorem not_occurs_at_separator (bytes : List Char) (h : '*' ∉ bytes) (j : Nat) :
    ¬ occurs_at bytes ['*'] j := by
  intro ho
  unfold occurs_at at ho
  have hm : '*' ∈ (bytes.drop j).take 1 := by
    simp only [List.length_singleton] at ho
    rw [ho]
    exact List.mem_cons_self _ _
  exact h (List.mem_of_mem_drop (List.mem_of_mem_take hm))

/-- C17 (component and command names): with span functions that keep their contract,
`pnp_parse_command_name` always returns `AZ_OK`. When the first `*` of the input is at a
position after 0, so that the input is a non-empty `name` without `*`, then `*`, then
`command`, the component name is `name`, the first bytes of the input up to that `*`, and the
command name is `command`, everything after that `*`; the two with `*` between them are the
input. When the input has no `*`, or starts with `*`, the component name is the null span and
the command name is the input unchanged. -/
theorem c17_parse_command_name (fns : SpanFunctions) (hlaw : fns.Lawful)
    (component_command : az_span) :
    (pnp_parse_command_name fns component_command).1 = az_result.AZ_OK
    ∧ (∀ name command : List Char,
        component_command.bytes = name ++ '*' :: command → '*' ∉ name → name ≠ [] →
        pnp_parse_command_name fns component_command
          = (az_result.AZ_OK, az_span.of name, az_span.of command)
        ∧ name = component_command.bytes.take name.length
        ∧ command = component_command.bytes.drop (name.length + 1)
        ∧ (pnp_parse_command_name fns component_command).2.1.bytes ++ "*".toList
            ++ (pnp_parse_command_name fns component_command).2.2.bytes
          = component_command.bytes)
    ∧ ('*' ∉ component_command.bytes ∨ (∃ rest, component_command.bytes = '*' :: rest) →
        pnp_parse_command_name fns component_command
          = (az_result.AZ_OK, az_span.null, component_command)) := by
  refine ⟨?_, ?_, ?_⟩
  · unfold pnp_parse_command_name
    simp only
    split <;> rfl
  · intro name command hbytes hname hne
    have hfind : fns.az_span_find component_command command_separator
        = (name.length : Int) := by
      apply hlaw.find_first
      · rw [hbytes, command_separator_bytes]
        exact occurs_at_separator_split name command
      · intro j hj
        rw [hbytes, command_separator_bytes]
        exact not_occurs_at_separator_before name _ hname j hj
    have hpos : (name.length : Int) > 0 := by
      have : 0 < name.length := List.length_pos.mpr hne
      omega
    cases component_command with
    | null => simp [az_span.bytes] at hbytes
    | of bytes =>
      simp only [az_span.bytes] at hbytes
      subst hbytes
      have h1 : fns.az_span_slice (az_span.of (name ++ '*' :: command)) 0 (name.length : Int)
          = az_span.of name := by
        have := hlaw.slice (name ++ '*' :: command) 0 name.length (Nat.zero_le _) (by simp)
        simpa using this
      have h2 : fns.az_span_slice (az_span.of (name ++ '*' :: command))
          ((name.length : Int) + 1) (az_span_size (az_span.of (name ++ '*' :: command)))
          = az_span.of command := by
        have := hlaw.slice (name ++ '*' :: command) (name.length + 1)
          (name ++ '*' :: command).length (by simp) (le_refl _)
        have hdrop : (name ++ '*' :: command).drop (name.length + 1) = command := by
          rw [← List.drop_drop, List.drop_left]
          rfl
        rw [hdrop] at this
        have hlen : (name ++ '*' :: command).length - (name.length + 1) = command.length := by
          simp
          omega
        rw [hlen, List.take_length] at this
        rw [← this]
        simp [az_span_size, az_span.bytes]
      have hres : pnp_parse_command_name fns (az_span.of (name ++ '*' :: command))
          = (az_result.AZ_OK, az_span.of name, az_span.of command) := by
        unfold pnp_parse_command_name
        simp only [hfind, hpos, if_true, h1, h2]
      refine ⟨hres, ?_, ?_, ?_⟩
      · simp [az_span.bytes]
      · simp only [az_span.bytes]
        rw [← List.drop_drop, List.drop_left]
        rfl
      · rw [hres]
        simp [az_span.bytes]
  · intro h
    have hfind : ¬ fns.az_span_find component_command command_separator > 0 := by
      rcases h with h | ⟨rest, h⟩
      · have := hlaw.find_none component_command command_separator (by
          intro i
          rw [command_separator_bytes]
          exact not_occurs_at_separator _ h i)
        rw [this]
        decide
      · have := hlaw.find_first component_command command_separator 0 (by
          rw [command_separator_bytes, h]
          simp [occurs_at]) (fun j hj => absurd hj (Nat.not_lt_zero j))
        rw [this]
        decide
    unfold pnp_parse_command_name
    simp only [hfind, if_false]

/-- C17 at a component command, and at a command that starts with the separator. -/
theorem c17_parse_command_name_witness :
    pnp_parse_command_name sample_span_functions
        (AZ_SPAN_FROM_STR "thermostat1*getMaxMinReport")
      = (az_result.AZ_OK, AZ_SPAN_FROM_STR "thermostat1", AZ_SPAN_FROM_STR "getMaxMinReport")
    ∧ pnp_parse_command_name sample_span_functions (AZ_SPAN_FROM_STR "*reboot")
      = (az_result.AZ_OK, az_span.null, AZ_SPAN_FROM_STR "*reboot") :=
  ⟨((c17_parse_command_name sample_span_functions sample_span_functions_lawful
      (AZ_SPAN_FROM_STR "thermostat1*getMaxMinReport")).2.1
      "thermostat1".toList "getMaxMinReport".toList rfl (by decide) (by decide)).1,
    (c17_parse_command_name sample_span_functions sample_span_functions_lawful
      (AZ_SPAN_FROM_STR "*reboot")).2.2 (Or.inr ⟨"reboot".toList, rfl⟩)⟩

end AzCore
